import Mathlib

/-!
Verification of the Financial Account Synchronization Engine.

The definitions below are a shallow embedding of the Python sources under
`backend/app` (services `account_sync_service.py`, `transaction_sync_service.py`,
`holding_sync_service.py`, `batch_sync_service.py`, and the repositories they
call).  Python floats are modelled as rationals, `uuid.uuid4()` as a counter of
fresh ids, `datetime.utcnow()` as a fixed clock carried in the store, and the
external aggregator (whose `sync_transactions` / `get_holdings` methods are
declared only by their callers in the repository) as an environment of
response-producing functions following the interface contract of the spec.
-/

namespace FinSync

/-- Balance dictionary produced by `PlaidService.get_balance`
(`plaid_service.py` lines 306-317): the `available` / `current` / `limit`
values of one account, each possibly `None`. -/
structure BalanceInfo where
  available : Option ℚ
  current : Option ℚ
  creditLimit : Option ℚ
deriving DecidableEq

/-- Row of the `connected_accounts` table (`models/connected_account.py`),
restricted to the fields the sync engine reads or writes. -/
structure ConnectedAccount where
  id : String
  user_id : String
  plaid_access_token : String
  plaid_account_id : String
  institution_name : String
  account_name : String
  account_type : String
  account_subtype : Option String
  is_active : Bool
  last_synced_at : Option Nat
  last_sync_error : Option String
  transactions_cursor : Option String
deriving DecidableEq

/-- Row of the `assets` table, restricted to the fields touched by the
balance synchronizer. -/
structure Asset where
  id : String
  user_id : String
  category : String
  name : String
  value : ℚ
  connected_account_id : Option String
  is_connected : Bool
  last_synced_at : Option Nat
deriving DecidableEq

/-- Row of the `liabilities` table, restricted to the fields touched by the
balance synchronizer. -/
structure Liability where
  id : String
  user_id : String
  category : String
  name : String
  balance : ℚ
  connected_account_id : Option String
  is_connected : Bool
  last_synced_at : Option Nat
deriving DecidableEq

/-- Row of the `transactions` table, restricted to the fields the sync
pipeline writes; the optional fields model nullable columns. -/
structure Txn where
  id : String
  user_id : String
  connected_account_id : String
  plaid_transaction_id : String
  plaid_account_id : String
  amount : Option ℚ
  name : Option String
  merchant_name : Option String
deriving DecidableEq

/-- One added/modified record of a transaction-sync page: the dictionary the
sync loop feeds to `upsert_by_plaid_transaction_id`.  Keys whose value is
`None` in Python are `none` here. -/
structure TxnData where
  plaid_transaction_id : String
  plaid_account_id : String
  amount : Option ℚ
  name : Option String
  merchant_name : Option String
deriving DecidableEq

/-- Modelled from the spec: one page of the `sync_transactions(credential,
cursor) → \x7badded, modified, removed, next_cursor, has_more\x7d` provider
response (spec section 6); the method itself is absent from the sources, only
its callers appear. -/
structure TxnPage where
  added : List TxnData
  modified : List TxnData
  removed : List String
  next_cursor : String
  has_more : Bool
deriving DecidableEq

/-- Row of the `securities` table (`models/security.py`), keyed by
`plaid_security_id`. -/
structure Security where
  id : String
  plaid_security_id : String
  name : Option String
  ticker_symbol : Option String
  is_cash_equivalent : Option Bool
  sec_type : Option String
  close_price : Option ℚ
  close_price_as_of : Option Nat
  iso_currency_code : Option String
deriving DecidableEq

/-- One security entry of the provider holdings snapshot, as consumed by
`holding_sync_service.py` lines 59-71. -/
structure SecData where
  security_id : String
  name : Option String
  ticker_symbol : Option String
  is_cash_equivalent : Option Bool
  sec_type : Option String
  close_price : Option ℚ
  close_price_as_of : Option Nat
  iso_currency_code : Option String
deriving DecidableEq

/-- Row of the `holdings` table (`models/holding.py`), restricted to the
fields the holding synchronizer writes. -/
structure Holding where
  id : String
  user_id : String
  connected_account_id : String
  security_id : String
  institution_price : Option ℚ
  institution_price_as_of : Option Nat
  institution_value : Option ℚ
  cost_basis : Option ℚ
  quantity : Option ℚ
  iso_currency_code : Option String
deriving DecidableEq

/-- One holding entry of the provider holdings snapshot, as consumed by
`holding_sync_service.py` lines 80-96. -/
structure HoldData where
  account_id : String
  security_id : String
  institution_price : Option ℚ
  institution_price_as_of : Option Nat
  institution_value : Option ℚ
  cost_basis : Option ℚ
  quantity : Option ℚ
  iso_currency_code : Option String
deriving DecidableEq

/-- Modelled from the spec: the `get_holdings(credential) →
\x7bholdings[], securities[]\x7d` provider response (spec section 6); the
method is absent from the sources, only its callers appear. -/
structure HoldingsData where
  securities : List SecData
  holdings : List HoldData
deriving DecidableEq

/-- The persistent store: one list per table, a counter modelling
`uuid.uuid4()` id generation, and a clock modelling `datetime.utcnow()`. -/
structure Store where
  accounts : List ConnectedAccount
  assets : List Asset
  liabilities : List Liability
  transactions : List Txn
  securities : List Security
  holdings : List Holding
  nextId : Nat
  now : Nat
deriving DecidableEq

/-- Fresh primary key produced by the id counter; always a nonempty string,
as `str(uuid.uuid4())` is. -/
def freshId (n : Nat) : String := "uuid-" ++ toString n

/-- Environment of external effects: credential decryption (may raise),
`PlaidService.get_balance` (network result, `None` on any error), the
successive responses of the provider transaction-sync calls of one run (an
`Except.error` entry models the call raising), the provider holdings
snapshot call, and an optional persistence failure raised while upserting the
asset/liability (`account_sync_service.py` lines 137-158 try block). -/
structure Env where
  decrypt : String → Except String String
  getBalance : String → String → Option BalanceInfo
  txnPages : String → List (Except String TxnPage)
  getHoldings : String → Except String HoldingsData
  persistFail : Option String

/-- Python update semantics for one nullable column: `ConnectedAccountRepository.update`
and the other repository `update` methods guard every assignment with
`if value is not None`, so a `none` argument leaves the stored value
unchanged. -/
def pyKeep {α : Type} (newVal : Option α) (oldVal : Option α) : Option α :=
  match newVal with
  | some v => some v
  | none => oldVal

/-- Python `x or y` over a float-or-None `x`: `x` is kept only when it is
truthy, i.e. neither `None` nor zero. -/
def pyOr (x : Option ℚ) (y : ℚ) : ℚ :=
  match x with
  | some v => if v ≠ 0 then v else y
  | none => y

/-- The balance selection of `account_sync_service.py` line 125:
`balance_info.get('current') or balance_info.get('available') or 0.0`. -/
def chooseBalance (current available : Option ℚ) : ℚ :=
  pyOr current (pyOr available 0)

/-- ASCII lowering of one character, as Python `str.lower()` acts on the
ASCII inputs of the account taxonomy. -/
def lowerChar (c : Char) : Char :=
  if 65 ≤ c.toNat && c.toNat ≤ 90 then Char.ofNat (c.toNat + 32) else c

/-- Python `str.lower()` on ASCII strings, written structurally so concrete
evaluation reduces. -/
def strLower (s : String) : String :=
  String.mk (s.data.map lowerChar)

/-- `PLAID_TO_ASSET_CATEGORY` of `account_sync_service.py` lines 20-34, in
source order. -/
def PLAID_TO_ASSET_CATEGORY : List ((String × String) × String) :=
  [ (("depository", "checking"), "cash"),
    (("depository", "savings"), "savings"),
    (("depository", "money market"), "savings"),
    (("depository", "cd"), "savings"),
    (("investment", "401k"), "retirement_401k"),
    (("investment", "403b"), "retirement_401k"),
    (("investment", "ira"), "retirement_ira"),
    (("investment", "roth"), "retirement_roth"),
    (("investment", "hsa"), "retirement_hsa"),
    (("investment", "pension"), "retirement_pension"),
    (("investment", "brokerage"), "brokerage"),
    (("investment", "529"), "other"),
    (("other", "other"), "other") ]

/-- `PLAID_TO_LIABILITY_CATEGORY` of `account_sync_service.py` lines 36-43,
in source order. -/
def PLAID_TO_LIABILITY_CATEGORY : List ((String × String) × String) :=
  [ (("credit", "credit card"), "credit_card"),
    (("loan", "auto"), "auto_loan"),
    (("loan", "student"), "student_loan"),
    (("loan", "mortgage"), "mortgage"),
    (("loan", "personal"), "personal_loan"),
    (("other", "other"), "other") ]

/-- `AccountSyncService.map_plaid_to_category` (`account_sync_service.py`
lines 49-84): exact lookup in the asset then the liability table, the same
with an empty subtype, then the coarse type-class defaults; `(none, false)`
when nothing matches (the Python function returns `(None, False)`; the table
categories are all nonempty strings, so the caller's `if not category` test
coincides with the option being `none`). -/
def mapPlaidToCategory (plaidType : String) (plaidSubtype : Option String) :
    Option String × Bool :=
  let subtype := strLower (plaidSubtype.getD "")
  let typeKey := (strLower plaidType, subtype)
  match PLAID_TO_ASSET_CATEGORY.lookup typeKey with
  | some c => (some c, true)
  | none =>
    match PLAID_TO_LIABILITY_CATEGORY.lookup typeKey with
    | some c => (some c, false)
    | none =>
      let typeOnlyKey := (strLower plaidType, "")
      match PLAID_TO_ASSET_CATEGORY.lookup typeOnlyKey with
      | some c => (some c, true)
      | none =>
        match PLAID_TO_LIABILITY_CATEGORY.lookup typeOnlyKey with
        | some c => (some c, false)
        | none =>
          if strLower plaidType == "depository" || strLower plaidType == "investment" then
            (some "other", true)
          else if strLower plaidType == "credit" || strLower plaidType == "loan" then
            (some "other", false)
          else
            (none, false)

/-- Lookup of one tier of the ordered mapping table, written from the spec
words for the refinement comparison: a match in the asset table yields an
asset verdict, else a match in the liability table a liability verdict. -/
def tierLookup (key : String × String) : Option (String × Bool) :=
  match PLAID_TO_ASSET_CATEGORY.lookup key with
  | some c => some (c, true)
  | none =>
    match PLAID_TO_LIABILITY_CATEGORY.lookup key with
    | some c => some (c, false)
    | none => none

/-- The mapping as the spec words it (section 4.3): an ordered table
consulted as exact kind+subtype match first, then kind-only match, then a
coarse kind-class default, and no match at all signalling a mapping error.
Written from the spec for the refinement comparison with
`mapPlaidToCategory`. -/
def specOrderedMapping (plaidType : String) (plaidSubtype : Option String) :
    Option String × Bool :=
  let subtype := strLower (plaidSubtype.getD "")
  match tierLookup (strLower plaidType, subtype) with
  | some r => (some r.1, r.2)
  | none =>
    match tierLookup (strLower plaidType, "") with
    | some r => (some r.1, r.2)
    | none =>
      if strLower plaidType == "depository" || strLower plaidType == "investment" then
        (some "other", true)
      else if strLower plaidType == "credit" || strLower plaidType == "loan" then
        (some "other", false)
      else
        (none, false)

/-- `ConnectedAccountRepository.get` filtered by id and user
(`connected_account_repository.py` lines 142-147). -/
def getConnectedAccount (s : Store) (caId uid : String) : Option ConnectedAccount :=
  s.accounts.find? (fun a => a.id == caId && a.user_id == uid)

/-- One step of `ConnectedAccountRepository.update` restricted to the three
fields the sync services pass (`transactions_cursor`, `last_synced_at`,
`last_sync_error`): the first row matching id and user is rewritten, and a
`none` argument leaves that field unchanged, because the Python method skips
dictionary values that are `None`.  In particular passing
`last_sync_error = None` does not clear a stored error. -/
def updateFirstAccount (l : List ConnectedAccount) (caId uid : String)
    (cursor : Option String) (syncedAt : Option Nat) (syncErr : Option String) :
    List ConnectedAccount :=
  match l with
  | [] => []
  | a :: rest =>
    if a.id == caId && a.user_id == uid then
      { a with transactions_cursor := pyKeep cursor a.transactions_cursor,
               last_synced_at := pyKeep syncedAt a.last_synced_at,
               last_sync_error := pyKeep syncErr a.last_sync_error } :: rest
    else
      a :: updateFirstAccount rest caId uid cursor syncedAt syncErr

/-- `ConnectedAccountRepository.update` on the store (no row is touched when
the id/user pair matches nothing, as the Python method then returns `None`
without writing). -/
def updateConnectedAccount (s : Store) (caId uid : String)
    (cursor : Option String) (syncedAt : Option Nat) (syncErr : Option String) : Store :=
  { s with accounts := updateFirstAccount s.accounts caId uid cursor syncedAt syncErr }

/-- The asset found by `AccountSyncService._create_or_update_asset` lines
203-207: first asset of the user linked to the connected account. -/
def findAssetByCA (s : Store) (uid caId : String) : Option Asset :=
  (s.assets.filter (fun a => a.user_id == uid)).find?
    (fun a => a.connected_account_id == some caId)

/-- The liability found by `AccountSyncService._create_or_update_liability`
lines 236-240. -/
def findLiabilityByCA (s : Store) (uid caId : String) : Option Liability :=
  (s.liabilities.filter (fun l => l.user_id == uid)).find?
    (fun l => l.connected_account_id == some caId)

/-- `AssetRepository.update` restricted to the value/timestamp write of the
balance synchronizer: rewrite the first row matching id and user (both
written values are non-`None`, so nothing is skipped). -/
def updateFirstAsset (l : List Asset) (assetId uid : String) (v : ℚ) (t : Nat) :
    List Asset :=
  match l with
  | [] => []
  | a :: rest =>
    if a.id == assetId && a.user_id == uid then
      { a with value := v, last_synced_at := some t } :: rest
    else
      a :: updateFirstAsset rest assetId uid v t

/-- `LiabilityRepository.update` restricted to the balance/timestamp write of
the balance synchronizer. -/
def updateFirstLiability (l : List Liability) (liabId uid : String) (v : ℚ) (t : Nat) :
    List Liability :=
  match l with
  | [] => []
  | a :: rest =>
    if a.id == liabId && a.user_id == uid then
      { a with balance := v, last_synced_at := some t } :: rest
    else
      a :: updateFirstLiability rest liabId uid v t

/-- `AccountSyncService._create_or_update_asset` (lines 193-224): update the
linked asset in place when one exists, otherwise create a fresh one named
after the institution and account. -/
def createOrUpdateAsset (s : Store) (a : ConnectedAccount) (category : String)
    (balance : ℚ) (uid : String) : Store :=
  match findAssetByCA s uid a.id with
  | some existing =>
    { s with assets := updateFirstAsset s.assets existing.id uid balance s.now }
  | none =>
    { s with
      assets := s.assets ++
        [{ id := freshId s.nextId, user_id := uid, category := category,
           name := a.institution_name ++ " " ++ a.account_name, value := balance,
           connected_account_id := some a.id, is_connected := true,
           last_synced_at := some s.now }],
      nextId := s.nextId + 1 }

/-- `AccountSyncService._create_or_update_liability` (lines 226-257). -/
def createOrUpdateLiability (s : Store) (a : ConnectedAccount) (category : String)
    (balance : ℚ) (uid : String) : Store :=
  match findLiabilityByCA s uid a.id with
  | some existing =>
    { s with liabilities := updateFirstLiability s.liabilities existing.id uid balance s.now }
  | none =>
    { s with
      liabilities := s.liabilities ++
        [{ id := freshId s.nextId, user_id := uid, category := category,
           name := a.institution_name ++ " " ++ a.account_name, balance := balance,
           connected_account_id := some a.id, is_connected := true,
           last_synced_at := some s.now }],
      nextId := s.nextId + 1 }

/-- `AccountSyncService.sync_account` (`account_sync_service.py` lines
86-158): look the account up, decrypt the credential, fetch the balance, map
the type, upsert the asset or liability (sign-normalizing a negative balance
for liabilities), then stamp the sync; every failure path records the message
on `last_sync_error` and returns `(false, message)`. -/
def syncAccount (env : Env) (s : Store) (caId uid : String) :
    (Bool × Option String) × Store :=
  match getConnectedAccount s caId uid with
  | none => ((false, some "Connected account not found"), s)
  | some account =>
    if account.is_active then
      match env.decrypt account.plaid_access_token with
      | Except.error e =>
        let msg := "Failed to decrypt access token: " ++ e
        ((false, some msg), updateConnectedAccount s account.id uid none none (some msg))
      | Except.ok accessToken =>
        match env.getBalance accessToken account.plaid_account_id with
        | none =>
          let msg := "Failed to fetch balance from Plaid"
          ((false, some msg), updateConnectedAccount s account.id uid none none (some msg))
        | some balanceInfo =>
          let balance := chooseBalance balanceInfo.current balanceInfo.available
          match mapPlaidToCategory account.account_type account.account_subtype with
          | (none, _) =>
            let msg := "Unable to map account type " ++ account.account_type ++ "/" ++
              account.account_subtype.getD "None"
            ((false, some msg), updateConnectedAccount s account.id uid none none (some msg))
          | (some category, isAsset) =>
            match env.persistFail with
            | some pmsg =>
              let msg := "Error syncing account: " ++ pmsg
              ((false, some msg), updateConnectedAccount s account.id uid none none (some msg))
            | none =>
              let s1 :=
                if isAsset then
                  createOrUpdateAsset s account category balance uid
                else
                  createOrUpdateLiability s account category
                    (if balance < 0 then -balance else balance) uid
              let s2 := updateConnectedAccount s1 account.id uid none (some s1.now) none
              ((true, none), s2)
    else
      ((false, some "Account is not active"), s)

/-- Fields written into a transaction row by one `setattr` pass of
`TransactionRepository.upsert_by_plaid_transaction_id` lines 147-149: the
non-nullable dictionary entries are always assigned, the nullable ones only
when not `None` (and `id`, `user_id`, `created_at` are never touched). -/
def applyTxnUpdate (r : Txn) (cid : String) (d : TxnData) : Txn :=
  { r with connected_account_id := cid,
           plaid_transaction_id := d.plaid_transaction_id,
           plaid_account_id := d.plaid_account_id,
           amount := pyKeep d.amount r.amount,
           name := pyKeep d.name r.name,
           merchant_name := pyKeep d.merchant_name r.merchant_name }

/-- Rewrite the first row with the given provider transaction id — the row
`get_by_plaid_transaction_id` finds (no user filter on the lookup,
`transaction_repository.py` lines 36-40). -/
def updateFirstTxn (l : List Txn) (ptid cid : String) (d : TxnData) : List Txn :=
  match l with
  | [] => []
  | r :: rest =>
    if r.plaid_transaction_id == ptid then
      applyTxnUpdate r cid d :: rest
    else
      r :: updateFirstTxn rest ptid cid d

/-- Fresh transaction row built by `TransactionRepository.create` from the
sync dictionary (which carries `connected_account_id`, set by the sync
service before the upsert). -/
def mkTxn (rowId uid cid : String) (d : TxnData) : Txn :=
  { id := rowId, user_id := uid, connected_account_id := cid,
    plaid_transaction_id := d.plaid_transaction_id,
    plaid_account_id := d.plaid_account_id,
    amount := d.amount, name := d.name, merchant_name := d.merchant_name }

/-- `TransactionRepository.upsert_by_plaid_transaction_id`
(`transaction_repository.py` lines 137-155): find the first stored row with
the provider transaction id; update it in place when it belongs to the user,
otherwise create a fresh row for the user. -/
def upsertByPlaidTransactionId (s : Store) (cid : String) (d : TxnData) (uid : String) :
    Store :=
  match s.transactions.find? (fun r => r.plaid_transaction_id == d.plaid_transaction_id) with
  | some existing =>
    if existing.user_id == uid then
      { s with transactions := updateFirstTxn s.transactions d.plaid_transaction_id cid d }
    else
      { s with transactions := s.transactions ++ [mkTxn (freshId s.nextId) uid cid d],
               nextId := s.nextId + 1 }
  | none =>
    { s with transactions := s.transactions ++ [mkTxn (freshId s.nextId) uid cid d],
             nextId := s.nextId + 1 }

/-- Remove the first row matching provider transaction id and user — the row
`TransactionRepository.delete_by_plaid_transaction_id` deletes. -/
def removeFirstTxn (l : List Txn) (ptid uid : String) : List Txn :=
  match l with
  | [] => []
  | r :: rest =>
    if r.plaid_transaction_id == ptid && r.user_id == uid then
      rest
    else
      r :: removeFirstTxn rest ptid uid

/-- `TransactionRepository.delete_by_plaid_transaction_id`
(`transaction_repository.py` lines 157-168): delete the user's row with that
provider id, reporting whether one existed. -/
def deleteByPlaidTransactionId (s : Store) (ptid uid : String) : Bool × Store :=
  match s.transactions.find? (fun r => r.plaid_transaction_id == ptid && r.user_id == uid) with
  | some _ => (true, { s with transactions := removeFirstTxn s.transactions ptid uid })
  | none => (false, s)

/-- The added/modified pass of one sync page (`transaction_sync_service.py`
lines 66-79): upsert every record whose embedded provider account id equals
the synced account's id, counting the upserts; other records are skipped. -/
def upsertMatching (plaidAccountId cid uid : String) :
    List TxnData → Store → Nat → Store × Nat
  | [], s, n => (s, n)
  | d :: rest, s, n =>
    if d.plaid_account_id == plaidAccountId then
      upsertMatching plaidAccountId cid uid rest
        (upsertByPlaidTransactionId s cid d uid) (n + 1)
    else
      upsertMatching plaidAccountId cid uid rest s n

/-- The removed pass of one sync page (`transaction_sync_service.py` lines
81-84): delete each removed provider transaction id, counting the ones that
existed. -/
def deleteRemoved (uid : String) : List String → Store → Nat → Store × Nat
  | [], s, n => (s, n)
  | ptid :: rest, s, n =>
    let r := deleteByPlaidTransactionId s ptid uid
    deleteRemoved uid rest r.2 (if r.1 then n + 1 else n)

/-- Outcome of the page loop of `sync_transactions_for_account`: normal
completion with the final cursor and counts, or an exception raised by a
provider call mid-loop, carrying the store as mutated so far. -/
inductive TxnLoopResult where
  | ok (finalCursor : String) (added modified removed : Nat) (s : Store)
  | raised (msg : String) (s : Store)
deriving DecidableEq

/-- The `while True` page loop of `transaction_sync_service.py` lines 63-91,
driven by the successive provider responses of this run; `none` models the
provider answering `has_more` forever (the Python loop would not return). -/
def syncTxnLoop (plaidAccountId cid uid : String) :
    List (Except String TxnPage) → Store → Nat → Nat → Nat → Option TxnLoopResult
  | [], _, _, _, _ => none
  | Except.error e :: _, s, _, _, _ => some (TxnLoopResult.raised e s)
  | Except.ok page :: rest, s, a, m, r =>
    let pa := upsertMatching plaidAccountId cid uid page.added s a
    let pm := upsertMatching plaidAccountId cid uid page.modified pa.1 m
    let pr := deleteRemoved uid page.removed pm.1 r
    if page.has_more then
      syncTxnLoop plaidAccountId cid uid rest pr.1 pa.2 pm.2 pr.2
    else
      some (TxnLoopResult.ok page.next_cursor pa.2 pm.2 pr.2 pr.1)

/-- Result dictionary of `sync_transactions_for_account`: the added, modified
and removed counts on success, or the error message. -/
inductive TxnSyncOutcome where
  | counts (added modified removed : Nat)
  | failed (msg : String)
deriving DecidableEq

/-- `TransactionSyncService.sync_transactions_for_account`
(`transaction_sync_service.py` lines 21-114): after the page loop completes,
one single repository update persists the final cursor and timestamp (the
dictionary also carries `last_sync_error = None`, which the repository's
`is not None` guard skips); an exception mid-loop persists only the error
message, leaving the stored cursor untouched. -/
def syncTransactionsForAccount (env : Env) (s : Store) (caId uid : String) :
    Option ((Bool × TxnSyncOutcome) × Store) :=
  match getConnectedAccount s caId uid with
  | none => some ((false, TxnSyncOutcome.failed "Connected account not found"), s)
  | some account =>
    if account.is_active then
      match env.decrypt account.plaid_access_token with
      | Except.error e =>
        some ((false, TxnSyncOutcome.failed ("Failed to decrypt access token: " ++ e)), s)
      | Except.ok accessToken =>
        match syncTxnLoop account.plaid_account_id caId uid
            (env.txnPages accessToken) s 0 0 0 with
        | none => none
        | some (TxnLoopResult.ok finalCursor a m r sLoop) =>
          let s2 := updateConnectedAccount sLoop caId uid (some finalCursor)
            (some sLoop.now) none
          some ((true, TxnSyncOutcome.counts a m r), s2)
        | some (TxnLoopResult.raised e sLoop) =>
          let msg := "Transaction sync failed: " ++ e
          let s2 := updateConnectedAccount sLoop caId uid none none (some msg)
          some ((false, TxnSyncOutcome.failed msg), s2)
    else
      some ((false, TxnSyncOutcome.failed "Account is not active"), s)

/-- Security row rewritten by `SecurityRepository.upsert_by_plaid_id` lines
30-35: every dictionary entry is assigned unconditionally (no `None` guard
there), keeping only the primary key. -/
def applySecUpdate (r : Security) (d : SecData) : Security :=
  { r with plaid_security_id := d.security_id, name := d.name,
           ticker_symbol := d.ticker_symbol,
           is_cash_equivalent := d.is_cash_equivalent, sec_type := d.sec_type,
           close_price := d.close_price, close_price_as_of := d.close_price_as_of,
           iso_currency_code := d.iso_currency_code }

/-- Rewrite the first security row carrying the provider security id. -/
def updateFirstSecurity (l : List Security) (plaidSecId : String) (d : SecData) :
    List Security :=
  match l with
  | [] => []
  | r :: rest =>
    if r.plaid_security_id == plaidSecId then
      applySecUpdate r d :: rest
    else
      r :: updateFirstSecurity rest plaidSecId d

/-- Fresh security row built by `SecurityRepository.upsert_by_plaid_id`
create branch. -/
def mkSecurity (rowId : String) (d : SecData) : Security :=
  { id := rowId, plaid_security_id := d.security_id, name := d.name,
    ticker_symbol := d.ticker_symbol, is_cash_equivalent := d.is_cash_equivalent,
    sec_type := d.sec_type, close_price := d.close_price,
    close_price_as_of := d.close_price_as_of,
    iso_currency_code := d.iso_currency_code }

/-- `SecurityRepository.upsert_by_plaid_id` (`security_repository.py` lines
25-39): update the row with the provider security id in place, else create
one; returns the resulting row (whose `id` feeds the holding rows). -/
def upsertSecurity (s : Store) (d : SecData) : Security × Store :=
  match s.securities.find? (fun r => r.plaid_security_id == d.security_id) with
  | some row =>
    (applySecUpdate row d,
     { s with securities := updateFirstSecurity s.securities d.security_id d })
  | none =>
    let row := mkSecurity (freshId s.nextId) d
    (row, { s with securities := s.securities ++ [row], nextId := s.nextId + 1 })

/-- The securities pass of `sync_holdings_for_account` lines 58-73: upsert
every snapshot security and build `security_id_map`.  The map is modelled as
an association list with the newest binding in front, so `List.lookup` sees
the last Python dictionary assignment for a key, as a dictionary read after
all assignments does. -/
def upsertSecurities : List SecData → Store → List (String × String) →
    Store × List (String × String)
  | [], s, m => (s, m)
  | d :: rest, s, m =>
    let r := upsertSecurity s d
    upsertSecurities rest r.2 ((d.security_id, r.1.id) :: m)

/-- `HoldingRepository.delete_by_account` (`holding_repository.py` lines
32-39): drop every holding row of the connected account and user. -/
def deleteHoldingsByAccount (s : Store) (caId uid : String) : Store :=
  { s with holdings :=
      s.holdings.filter (fun h => !(h.connected_account_id == caId && h.user_id == uid)) }

/-- Fresh holding row built from one snapshot entry
(`holding_sync_service.py` lines 83-95). -/
def mkHolding (rowId uid caId secId : String) (d : HoldData) : Holding :=
  { id := rowId, user_id := uid, connected_account_id := caId,
    security_id := secId, institution_price := d.institution_price,
    institution_price_as_of := d.institution_price_as_of,
    institution_value := d.institution_value, cost_basis := d.cost_basis,
    quantity := d.quantity, iso_currency_code := d.iso_currency_code }

/-- The holdings pass of `sync_holdings_for_account` lines 79-96: one fresh
row per snapshot entry whose account id matches the synced account and whose
security id resolves through the map to a truthy (nonempty) internal id;
other entries create nothing. -/
def createHoldings (plaidAccountId caId uid : String)
    (secMap : List (String × String)) :
    List HoldData → Store → Nat → Store × Nat
  | [], s, n => (s, n)
  | d :: rest, s, n =>
    if d.account_id == plaidAccountId then
      match secMap.lookup d.security_id with
      | some secId =>
        if secId != "" then
          createHoldings plaidAccountId caId uid secMap rest
            { s with holdings := s.holdings ++ [mkHolding (freshId s.nextId) uid caId secId d],
                     nextId := s.nextId + 1 }
            (n + 1)
        else
          createHoldings plaidAccountId caId uid secMap rest s n
      | none => createHoldings plaidAccountId caId uid secMap rest s n
    else
      createHoldings plaidAccountId caId uid secMap rest s n

/-- Result dictionary of `sync_holdings_for_account`: the number of holdings
added and of securities seen on success, or the error message. -/
inductive HoldSyncOutcome where
  | counts (added securitiesSeen : Nat)
  | failed (msg : String)
deriving DecidableEq

/-- `HoldingSyncService.sync_holdings_for_account`
(`holding_sync_service.py` lines 21-117): upsert the snapshot securities,
delete every holding of the account, insert the fresh rows, stamp the sync;
the function returns a `(success, dict)` pair. -/
def syncHoldingsForAccount (env : Env) (s : Store) (caId uid : String) :
    (Bool × HoldSyncOutcome) × Store :=
  match getConnectedAccount s caId uid with
  | none => ((false, HoldSyncOutcome.failed "Connected account not found"), s)
  | some account =>
    if account.is_active then
      match env.decrypt account.plaid_access_token with
      | Except.error e =>
        ((false, HoldSyncOutcome.failed ("Failed to decrypt access token: " ++ e)), s)
      | Except.ok accessToken =>
        match env.getHoldings accessToken with
        | Except.error e =>
          let msg := "Holdings sync failed: " ++ e
          ((false, HoldSyncOutcome.failed msg),
           updateConnectedAccount s caId uid none none (some msg))
        | Except.ok snapshot =>
          let pSec := upsertSecurities snapshot.securities s []
          let s2 := deleteHoldingsByAccount pSec.1 caId uid
          let pHold := createHoldings account.plaid_account_id caId uid pSec.2
            snapshot.holdings s2 0
          let s4 := updateConnectedAccount pHold.1 caId uid none (some pHold.1.now) none
          ((true, HoldSyncOutcome.counts pHold.2
              ((pSec.2.map Prod.fst).eraseDups.length)), s4)
    else
      ((false, HoldSyncOutcome.failed "Account is not active"), s)

/-- One entry of the `errors` list a `sync_user` report accumulates
(`batch_sync_service.py` lines 71-117): account id and name, pipeline stage,
and the message (`None` possible in Python, hence the option). -/
structure ErrEntry where
  account_id : String
  account_name : String
  stage : String
  error : Option String
deriving DecidableEq

/-- The result dictionary of `BatchSyncService.sync_user` lines 45-54. -/
structure UserReport where
  user_id : String
  accounts_synced : Nat
  accounts_failed : Nat
  transactions_added : Nat
  transactions_modified : Nat
  transactions_removed : Nat
  holdings_synced : Nat
  errors : List ErrEntry
deriving DecidableEq

/-- Message of the `AttributeError` Python raises at
`batch_sync_service.py` line 86: `sync_holdings_for_account` returns a
`(success, dict)` tuple, and `holding_result.get('holdings_synced', 0)` is
an attribute access on that tuple. -/
def tupleGetErrorMsg : String :=
  "\x27tuple\x27 object has no attribute \x27get\x27"

/-- The per-account loop of `BatchSyncService.sync_user` lines 62-126: run
the balance sync; on failure count the account failed, append a
`balance_sync` error entry and continue with the next account; on success
count it synced and branch on the account type.  For an investment account
the holdings sync runs for its store effects, after which the
`holding_result.get('holdings_synced', 0)` expression raises
`AttributeError` on the returned tuple — the surrounding `except` then
appends a `holdings_sync` error entry and the count is never added.  For any
other account the transaction sync runs and its counts or error entry are
accumulated. -/
def syncUserAccounts (env : Env) (uid : String) :
    List ConnectedAccount → Store → UserReport → Option (UserReport × Store)
  | [], s, rep => some (rep, s)
  | acct :: rest, s, rep =>
    let bal := syncAccount env s acct.id uid
    if bal.1.1 then
      let rep1 := { rep with accounts_synced := rep.accounts_synced + 1 }
      if acct.account_type == "investment" then
        let hold := syncHoldingsForAccount env bal.2 acct.id uid
        let rep2 := { rep1 with errors := rep1.errors ++
          [{ account_id := acct.id, account_name := acct.account_name,
             stage := "holdings_sync", error := some tupleGetErrorMsg }] }
        syncUserAccounts env uid rest hold.2 rep2
      else
        match syncTransactionsForAccount env bal.2 acct.id uid with
        | none => none
        | some ((txnOk, outcome), s2) =>
          if txnOk then
            let c := match outcome with
              | TxnSyncOutcome.counts a m r => (a, m, r)
              | TxnSyncOutcome.failed _ => (0, 0, 0)
            syncUserAccounts env uid rest s2
              { rep1 with
                transactions_added := rep1.transactions_added + c.1,
                transactions_modified := rep1.transactions_modified + c.2.1,
                transactions_removed := rep1.transactions_removed + c.2.2 }
          else
            let msg := match outcome with
              | TxnSyncOutcome.failed m => m
              | TxnSyncOutcome.counts _ _ _ => "Unknown error"
            syncUserAccounts env uid rest s2
              { rep1 with errors := rep1.errors ++
                [{ account_id := acct.id, account_name := acct.account_name,
                   stage := "transaction_sync", error := some msg }] }
    else
      syncUserAccounts env uid rest bal.2
        { rep with accounts_failed := rep.accounts_failed + 1,
                   errors := rep.errors ++
          [{ account_id := acct.id, account_name := acct.account_name,
             stage := "balance_sync", error := bal.1.2 }] }

/-- `BatchSyncService.sync_user` (`batch_sync_service.py` lines 29-128):
iterate the user's active connected accounts, driving balance sync then
holdings or transaction sync per account; `none` models a transaction page
loop that never terminates. -/
def syncUser (env : Env) (s : Store) (uid : String) : Option (UserReport × Store) :=
  let accounts := s.accounts.filter (fun a => a.user_id == uid && a.is_active)
  syncUserAccounts env uid accounts s
    { user_id := uid, accounts_synced := 0, accounts_failed := 0,
      transactions_added := 0, transactions_modified := 0,
      transactions_removed := 0, holdings_synced := 0, errors := [] }

/-- `BatchSyncService.get_all_user_ids` lines 22-27: the distinct user ids
holding at least one active connected account. -/
def getAllUserIds (s : Store) : List String :=
  ((s.accounts.filter (fun a => a.is_active)).map (fun a => a.user_id)).eraseDups

/-- The result dictionary of `BatchSyncService.sync_all_users` lines
142-154. -/
structure BatchReport where
  started_at : Nat
  users_total : Nat
  users_synced : Nat
  users_failed : Nat
  total_accounts_synced : Nat
  total_accounts_failed : Nat
  total_transactions_added : Nat
  total_transactions_modified : Nat
  total_transactions_removed : Nat
  total_holdings_synced : Nat
  user_errors : List (String × List ErrEntry)
  completed_at : Nat
  success : Bool
deriving DecidableEq

/-- The per-user loop of `BatchSyncService.sync_all_users` lines 156-181:
aggregate every user's counts; a user with a nonempty error list is counted
failed and filed under `user_errors`, otherwise counted synced. -/
def syncUsersFold (env : Env) : List String → Store → BatchReport →
    Option (BatchReport × Store)
  | [], s, rep => some (rep, s)
  | uid :: rest, s, rep =>
    match syncUser env s uid with
    | none => none
    | some (ur, s2) =>
      let rep1 := { rep with
        total_accounts_synced := rep.total_accounts_synced + ur.accounts_synced,
        total_accounts_failed := rep.total_accounts_failed + ur.accounts_failed,
        total_transactions_added := rep.total_transactions_added + ur.transactions_added,
        total_transactions_modified := rep.total_transactions_modified + ur.transactions_modified,
        total_transactions_removed := rep.total_transactions_removed + ur.transactions_removed,
        total_holdings_synced := rep.total_holdings_synced + ur.holdings_synced }
      let rep2 :=
        if ur.errors.isEmpty then
          { rep1 with users_synced := rep1.users_synced + 1 }
        else
          { rep1 with users_failed := rep1.users_failed + 1,
                      user_errors := rep1.user_errors ++ [(uid, ur.errors)] }
      syncUsersFold env rest s2 rep2

/-- The fresh result dictionary of `BatchSyncService.sync_all_users` lines
142-154, stamped with the start time and the enumerated user count. -/
def initBatchReport (s : Store) (total : Nat) : BatchReport :=
  { started_at := s.now, users_total := total, users_synced := 0,
    users_failed := 0, total_accounts_synced := 0, total_accounts_failed := 0,
    total_transactions_added := 0, total_transactions_modified := 0,
    total_transactions_removed := 0, total_holdings_synced := 0,
    user_errors := [], completed_at := s.now, success := false }

/-- The per-user fold applied to every enumerated user starting from the
fresh report, then the end stamp and the overall success flag
`users_failed == 0` (lines 183-184). -/
def syncAllUsers (env : Env) (s : Store) : Option (BatchReport × Store) :=
  let uids := getAllUserIds s
  match syncUsersFold env uids s (initBatchReport s uids.length) with
  | none => none
  | some (rep, s2) =>
    some ({ rep with completed_at := s2.now, success := rep.users_failed == 0 }, s2)

/-! Concrete fixtures used by the claim checks. -/

/-- An empty store with id counter 0 and clock 100. -/
def emptyStore : Store :=
  { accounts := [], assets := [], liabilities := [], transactions := [],
    securities := [], holdings := [], nextId := 0, now := 100 }

/-- An active connected account with the given keys and taxonomy. -/
def mkActiveAccount (caId uid tok pacct atype : String) (subtype : Option String) :
    ConnectedAccount :=
  { id := caId, user_id := uid, plaid_access_token := tok, plaid_account_id := pacct,
    institution_name := "Bank", account_name := "Acct", account_type := atype,
    account_subtype := subtype, is_active := true, last_synced_at := none,
    last_sync_error := none, transactions_cursor := none }

/-- Environment where decryption succeeds (yielding the stored token itself)
and every provider call is unprepared. -/
def baseEnv : Env :=
  { decrypt := fun tok => Except.ok tok, getBalance := fun _ _ => none,
    txnPages := fun _ => [], getHoldings := fun _ => Except.error "not fetched",
    persistFail := none }

/-- A balance response with a truthy current balance of 100. -/
def balance100 : Option BalanceInfo :=
  some { available := none, current := some 100, creditLimit := none }

def accountC1 : ConnectedAccount :=
  mkActiveAccount "ca1" "u1" "tok1" "pa1" "investment" (some "brokerage")

def storeC1 : Store := { emptyStore with accounts := [accountC1] }

def secX : SecData :=
  { security_id := "SX", name := some "X Corp", ticker_symbol := some "X",
    is_cash_equivalent := some false, sec_type := some "stock",
    close_price := some 10, close_price_as_of := none,
    iso_currency_code := some "USD" }

def holdX10 : HoldData :=
  { account_id := "pa1", security_id := "SX", institution_price := some 10,
    institution_price_as_of := none, institution_value := some 100,
    cost_basis := some 90, quantity := some 10, iso_currency_code := some "USD" }

def envC1 : Env :=
  { baseEnv with getBalance := fun _ _ => balance100,
                 getHoldings := fun _ =>
                   Except.ok { securities := [secX], holdings := [holdX10] } }

/-- C1: the claim reads: for every investment connected account whose balance
sync succeeds, sync_user runs Holding Sync for that account, adds the number
of holdings it synced to the report's holdings_synced count, and records no
holdings_sync-stage error entry when the holdings sync itself succeeds.  On
the code this fails: `sync_holdings_for_account` returns a `(success, dict)`
tuple, and `sync_user` line 86 calls `.get` on that tuple, raising
`AttributeError`, so even for this account — whose balance sync and holdings
sync (one holding, one security) both succeed, as the first two conjuncts
show — the report counts 0 holdings and carries a holdings_sync error entry,
although the holding row itself was stored. -/
theorem c1_holdings_count_bug :
    (syncHoldingsForAccount envC1 (syncAccount envC1 storeC1 "ca1" "u1").2 "ca1" "u1").1 =
      (true, HoldSyncOutcome.counts 1 1) ∧
    (syncAccount envC1 storeC1 "ca1" "u1").1 = (true, none) ∧
    (syncUser envC1 storeC1 "u1").map
        (fun p => (p.1.accounts_synced, p.1.holdings_synced, p.1.errors)) =
      some (1, 0,
        [{ account_id := "ca1", account_name := "Acct", stage := "holdings_sync",
           error := some tupleGetErrorMsg }]) ∧
    (syncUser envC1 storeC1 "u1").map (fun p => p.2.holdings.map Holding.quantity) =
      some [some 10] := by
  refine ⟨by decide, by decide, by decide, by decide⟩

def accountC2 : ConnectedAccount :=
  { mkActiveAccount "ca2" "u2" "tok2" "pa2" "depository" (some "checking") with
    transactions_cursor := some "c0", last_sync_error := some "previous failure" }

def storeC2 : Store := { emptyStore with accounts := [accountC2] }

def txnC2 : TxnData :=
  { plaid_transaction_id := "T21", plaid_account_id := "pa2", amount := some 3,
    name := some "Latte", merchant_name := none }

def envC2ok : Env :=
  { baseEnv with txnPages := fun _ =>
      [Except.ok { added := [txnC2], modified := [], removed := [],
                   next_cursor := "c1", has_more := false }] }

def envC2fail : Env :=
  { baseEnv with txnPages := fun _ =>
      [Except.ok { added := [txnC2], modified := [], removed := [],
                   next_cursor := "cA", has_more := true },
       Except.error "boom"] }

/-- C2: the claim reads: the stored cursor, synced timestamp, and cleared
error are persisted only once, after all pages of the run have been applied,
and an exception mid-loop leaves the stored transactions_cursor unchanged
and records the error.  The exception half holds (third and fourth
conjuncts: after a first page with `has_more` and a raising second call, the
cursor is still "c0", no timestamp is written, and the error is recorded),
and a successful run persists the final cursor "c1" and the timestamp; but
the error clear the claim includes does not happen: the account of this run
starts with `last_sync_error = "previous failure"`, the success path passes
`last_sync_error: None` to `ConnectedAccountRepository.update`, whose
`if value is not None` guard drops it, and the stale error survives (second
conjunct). -/
theorem c2_cursor_once_error_not_cleared :
    (syncTransactionsForAccount envC2ok storeC2 "ca2" "u2").map (fun p => p.1) =
      some (true, TxnSyncOutcome.counts 1 0 0) ∧
    ((syncTransactionsForAccount envC2ok storeC2 "ca2" "u2").bind
        (fun p => getConnectedAccount p.2 "ca2" "u2")).map
        (fun a => (a.transactions_cursor, a.last_synced_at, a.last_sync_error)) =
      some (some "c1", some 100, some "previous failure") ∧
    (syncTransactionsForAccount envC2fail storeC2 "ca2" "u2").map (fun p => p.1) =
      some (false, TxnSyncOutcome.failed "Transaction sync failed: boom") ∧
    ((syncTransactionsForAccount envC2fail storeC2 "ca2" "u2").bind
        (fun p => getConnectedAccount p.2 "ca2" "u2")).map
        (fun a => (a.transactions_cursor, a.last_synced_at, a.last_sync_error)) =
      some (some "c0", none, some "Transaction sync failed: boom") := by
  refine ⟨by decide, by decide, by decide, by decide⟩

/-- The implemented mapping coincides with the spec's ordered-tier reading:
exact kind+subtype tier, then kind-only tier, then the coarse kind-class
default. -/
theorem mapPlaid_eq_specOrderedMapping (t : String) (s : Option String) :
    mapPlaidToCategory t s = specOrderedMapping t s := by
  simp only [mapPlaidToCategory, specOrderedMapping, tierLookup]
  cases hA : List.lookup (strLower t, strLower (s.getD "")) PLAID_TO_ASSET_CATEGORY <;>
    cases hB : List.lookup (strLower t, strLower (s.getD "")) PLAID_TO_LIABILITY_CATEGORY <;>
    cases hA0 : List.lookup (strLower t, "") PLAID_TO_ASSET_CATEGORY <;>
    cases hB0 : List.lookup (strLower t, "") PLAID_TO_LIABILITY_CATEGORY <;>
    simp [hA, hB, hA0, hB0]

def accountC3 : ConnectedAccount :=
  mkActiveAccount "ca3" "u3" "tok3" "pa3" "exotic" (some "foo")

def storeC3 : Store := { emptyStore with accounts := [accountC3] }

def envC3 : Env := { baseEnv with getBalance := fun _ _ => balance100 }

/-- C3: the kind/subtype-to-category mapping is deterministic and ordered —
exact kind+subtype match first, then kind-only match, then a coarse
kind-class default (fourth conjunct, the refinement against the spec's tier
reading) — with (depository, checking) mapping to (cash, asset), (credit,
credit card) to (credit_card, liability), and the unrecognized (exotic, foo)
yielding no category at all rather than a silent default; `sync_account`
turns that into the mapping-error outcome of the spec's taxonomy: it returns
`(false, message)`, records the message on the account, and stores no asset
or liability. -/
theorem c3_mapping_deterministic_ordered :
    mapPlaidToCategory "depository" (some "checking") = (some "cash", true) ∧
    mapPlaidToCategory "credit" (some "credit card") = (some "credit_card", false) ∧
    mapPlaidToCategory "exotic" (some "foo") = (none, false) ∧
    (∀ t s, mapPlaidToCategory t s = specOrderedMapping t s) ∧
    (syncAccount envC3 storeC3 "ca3" "u3").1 =
      (false, some "Unable to map account type exotic/foo") ∧
    (syncAccount envC3 storeC3 "ca3" "u3").2.assets = [] ∧
    (syncAccount envC3 storeC3 "ca3" "u3").2.liabilities = [] ∧
    getConnectedAccount (syncAccount envC3 storeC3 "ca3" "u3").2 "ca3" "u3" =
      some { accountC3 with
             last_sync_error := some "Unable to map account type exotic/foo" } := by
  refine ⟨by decide, by decide, by decide, mapPlaid_eq_specOrderedMapping,
    by decide, by decide, by decide, by decide⟩

def txnD1 : TxnData :=
  { plaid_transaction_id := "T1", plaid_account_id := "pa1", amount := some 5,
    name := some "Coffee", merchant_name := some "Amazon" }

def txnD2 : TxnData :=
  { plaid_transaction_id := "T1", plaid_account_id := "pa1", amount := some 7,
    name := some "Espresso", merchant_name := none }

/-- C6 counterexample: the claim reads: applying the upsert twice with the
same provider transaction id yields exactly one stored row whose field
values are those of the second application.  One row indeed remains, but its
merchant name is the first application's "Amazon", not the `none` the second
application carries: the update pass skips dictionary values that are
`None`. -/
theorem c6_counterexample :
    (upsertByPlaidTransactionId
        (upsertByPlaidTransactionId emptyStore "ca1" txnD1 "u1") "ca1" txnD2 "u1").transactions =
      [{ id := "uuid-0", user_id := "u1", connected_account_id := "ca1",
         plaid_transaction_id := "T1", plaid_account_id := "pa1",
         amount := some 7, name := some "Espresso",
         merchant_name := some "Amazon" }] ∧
    txnD2.merchant_name = none := by
  refine ⟨by decide, by decide⟩

/-! General lemmas about the store operations. -/

/-- The connected-account update rewrites exactly the row the id/user lookup
finds, leaving its key fields intact. -/
theorem find?_updateFirstAccount (l : List ConnectedAccount) (caId uid : String)
    (c : Option String) (t : Option Nat) (e : Option String) :
    (updateFirstAccount l caId uid c t e).find? (fun a => a.id == caId && a.user_id == uid) =
      (l.find? (fun a => a.id == caId && a.user_id == uid)).map
        (fun a => { a with transactions_cursor := pyKeep c a.transactions_cursor,
                           last_synced_at := pyKeep t a.last_synced_at,
                           last_sync_error := pyKeep e a.last_sync_error }) := by
  induction l with
  | nil => rfl
  | cons a rest ih =>
    cases h : (a.id == caId && a.user_id == uid) with
    | true => simp [updateFirstAccount, h, List.find?_cons]
    | false => simp [updateFirstAccount, h, List.find?_cons, ih]

/-- `updateConnectedAccount` seen through the id/user lookup. -/
theorem getConnectedAccount_update (s : Store) (caId uid : String)
    (c : Option String) (t : Option Nat) (e : Option String) :
    getConnectedAccount (updateConnectedAccount s caId uid c t e) caId uid =
      (getConnectedAccount s caId uid).map
        (fun a => { a with transactions_cursor := pyKeep c a.transactions_cursor,
                           last_synced_at := pyKeep t a.last_synced_at,
                           last_sync_error := pyKeep e a.last_sync_error }) :=
  find?_updateFirstAccount s.accounts caId uid c t e

/-- A found connected account carries the looked-up id and user. -/
theorem getConnectedAccount_keys {s : Store} {caId uid : String} {a : ConnectedAccount}
    (h : getConnectedAccount s caId uid = some a) : a.id = caId ∧ a.user_id = uid := by
  have hp := List.find?_some h
  simp only [Bool.and_eq_true, beq_iff_eq] at hp
  exact hp

/-- C5: for every environment and store, when the looked-up account exists
and is active, every failing run of `sync_account` — the enumerated failure
paths are credential decryption, balance fetch, taxonomy mapping, and the
persistence step of the upsert, and the proof cases over all of them —
returns `(false, message)` and leaves that same message recorded on the
account's last-sync-error field; no exception escapes the boundary, which
the embedding shows by `syncAccount` being a total function into the
result-store pair. -/
theorem c5_failure_caught_recorded (env : Env) (s : Store) (caId uid : String)
    (a : ConnectedAccount)
    (hget : getConnectedAccount s caId uid = some a)
    (hactive : a.is_active = true)
    (hfail : (syncAccount env s caId uid).1.1 = false) :
    ∃ msg, (syncAccount env s caId uid).1.2 = some msg ∧
      ∃ a2, getConnectedAccount (syncAccount env s caId uid).2 caId uid = some a2 ∧
        a2.last_sync_error = some msg := by
  obtain ⟨hid, -⟩ := getConnectedAccount_keys hget
  simp only [syncAccount, hget, hactive, if_true] at hfail ⊢
  cases hd : env.decrypt a.plaid_access_token with
  | error e =>
    simp only [hd]
    refine ⟨_, rfl, ?_⟩
    rw [hid, getConnectedAccount_update, hget]
    exact ⟨_, rfl, rfl⟩
  | ok tok =>
    simp only [hd] at hfail ⊢
    cases hb : env.getBalance tok a.plaid_account_id with
    | none =>
      simp only [hb]
      refine ⟨_, rfl, ?_⟩
      rw [hid, getConnectedAccount_update, hget]
      exact ⟨_, rfl, rfl⟩
    | some bi =>
      simp only [hb] at hfail ⊢
      rcases hm : mapPlaidToCategory a.account_type a.account_subtype with ⟨oc, isA⟩
      cases oc with
      | none =>
        simp only [hm]
        refine ⟨_, rfl, ?_⟩
        rw [hid, getConnectedAccount_update, hget]
        exact ⟨_, rfl, rfl⟩
      | some cat =>
        simp only [hm] at hfail ⊢
        cases hp : env.persistFail with
        | some pmsg =>
          simp only [hp]
          refine ⟨_, rfl, ?_⟩
          rw [hid, getConnectedAccount_update, hget]
          exact ⟨_, rfl, rfl⟩
        | none =>
          simp [hp] at hfail

def envC5 : Env := { baseEnv with decrypt := fun _ => Except.error "bad key" }

def accountC5 : ConnectedAccount :=
  mkActiveAccount "ca5" "u5" "tok5" "pa5" "depository" (some "checking")

def storeC5 : Store := { emptyStore with accounts := [accountC5] }

/-- Witness for C5: a concrete run whose credential decryption fails. -/
theorem c5_failure_caught_recorded_witness :
    ∃ msg, (syncAccount envC5 storeC5 "ca5" "u5").1.2 = some msg ∧
      ∃ a2, getConnectedAccount (syncAccount envC5 storeC5 "ca5" "u5").2 "ca5" "u5" = some a2 ∧
        a2.last_sync_error = some msg :=
  c5_failure_caught_recorded envC5 storeC5 "ca5" "u5" accountC5
    (by decide) (by decide) (by decide)

/-- A prefix without a match is transparent to `find?`. -/
theorem find?_append_of_none {α : Type} (p : α → Bool) (l1 l2 : List α)
    (h : l1.find? p = none) : (l1 ++ l2).find? p = l2.find? p := by
  induction l1 with
  | nil => rfl
  | cons a t ih =>
    cases hpa : p a with
    | true => simp [List.find?_cons, hpa] at h
    | false =>
      simp only [List.find?_cons, hpa] at h
      simpa [List.find?_cons, hpa] using ih h

/-- The in-place ptid update is transparent to a prefix without a match. -/
theorem updateFirstTxn_append_of_none (l1 l2 : List Txn) (p cid : String) (d : TxnData)
    (h : ∀ r ∈ l1, (r.plaid_transaction_id == p) = false) :
    updateFirstTxn (l1 ++ l2) p cid d = l1 ++ updateFirstTxn l2 p cid d := by
  induction l1 with
  | nil => rfl
  | cons a t ih =>
    have ha := h a (by simp)
    simp only [List.cons_append, updateFirstTxn, ha, Bool.false_eq_true, if_false,
      List.cons.injEq, true_and]
    exact ih (fun r hr => h r (by simp [hr]))

/-- C6 amended: applying the upsert twice with the same provider transaction
id for the same user, starting with no stored row for that id, yields
exactly one stored row; each field of that row holds the second
application's value when that value is non-None and the first application's
value otherwise (`pyKeep`), with the row's id and user untouched by the
second pass. -/
theorem c6_amended_upsert (s : Store) (cid uid : String) (d1 d2 : TxnData)
    (hfresh : ∀ r ∈ s.transactions, r.plaid_transaction_id ≠ d1.plaid_transaction_id)
    (hsame : d2.plaid_transaction_id = d1.plaid_transaction_id) :
    ((upsertByPlaidTransactionId (upsertByPlaidTransactionId s cid d1 uid) cid d2 uid).transactions.filter
        (fun r => r.plaid_transaction_id == d1.plaid_transaction_id)) =
      [{ id := freshId s.nextId, user_id := uid, connected_account_id := cid,
         plaid_transaction_id := d2.plaid_transaction_id,
         plaid_account_id := d2.plaid_account_id,
         amount := pyKeep d2.amount d1.amount, name := pyKeep d2.name d1.name,
         merchant_name := pyKeep d2.merchant_name d1.merchant_name }] := by
  have hbeq : ∀ r ∈ s.transactions, (r.plaid_transaction_id == d1.plaid_transaction_id) = false := by
    intro r hr
    simp [hfresh r hr]
  have hnone : s.transactions.find?
      (fun r => r.plaid_transaction_id == d1.plaid_transaction_id) = none := by
    rw [List.find?_eq_none]
    intro r hr
    simp [hfresh r hr]
  rw [hsame]
  simp only [upsertByPlaidTransactionId, hnone, hsame, mkTxn]
  rw [find?_append_of_none _ _ _ hnone]
  simp only [List.find?_cons, List.find?_nil, beq_self_eq_true, if_true]
  rw [updateFirstTxn_append_of_none _ _ _ _ _ hbeq]
  rw [List.filter_append]
  have hfilter : s.transactions.filter
      (fun r => r.plaid_transaction_id == d1.plaid_transaction_id) = [] := by
    rw [List.filter_eq_nil_iff]
    intro r hr
    simp [hfresh r hr]
  rw [hfilter]
  simp [updateFirstTxn, applyTxnUpdate, hsame, List.filter_cons]

/-- Witness for the amended C6 statement at the concrete pair of records of
the counterexample. -/
theorem c6_amended_upsert_witness :
    ((upsertByPlaidTransactionId (upsertByPlaidTransactionId emptyStore "ca1" txnD1 "u1") "ca1" txnD2 "u1").transactions.filter
        (fun r => r.plaid_transaction_id == txnD1.plaid_transaction_id)) =
      [{ id := freshId emptyStore.nextId, user_id := "u1", connected_account_id := "ca1",
         plaid_transaction_id := txnD2.plaid_transaction_id,
         plaid_account_id := txnD2.plaid_account_id,
         amount := pyKeep txnD2.amount txnD1.amount, name := pyKeep txnD2.name txnD1.name,
         merchant_name := pyKeep txnD2.merchant_name txnD1.merchant_name }] :=
  c6_amended_upsert emptyStore "ca1" "u1" txnD1 txnD2 (by decide) (by decide)

/-- Rows after the in-place ptid update: a row that was already stored, or
the incoming record's rewrite, which carries the incoming provider account
id and the synced connected account id. -/
theorem mem_updateFirstTxn {r2 : Txn} {l : List Txn} {p cid : String} {d : TxnData}
    (h : r2 ∈ updateFirstTxn l p cid d) :
    r2 ∈ l ∨ (r2.plaid_account_id = d.plaid_account_id ∧ r2.connected_account_id = cid) := by
  induction l with
  | nil => simp [updateFirstTxn] at h
  | cons a t ih =>
    simp only [updateFirstTxn] at h
    by_cases hpa : (a.plaid_transaction_id == p) = true
    · rw [if_pos hpa] at h
      rcases List.mem_cons.mp h with h1 | h1
      · right
        rw [h1]
        exact ⟨rfl, rfl⟩
      · exact Or.inl (List.mem_cons_of_mem a h1)
    · rw [if_neg hpa] at h
      rcases List.mem_cons.mp h with h1 | h1
      · exact Or.inl (by simp [h1])
      · rcases ih h1 with h2 | h2
        · exact Or.inl (List.mem_cons_of_mem a h2)
        · exact Or.inr h2

/-- Rows after one upsert: a previously stored row, or a row carrying the
upserted record's provider account id and the synced connected account. -/
theorem mem_upsertTxn {r2 : Txn} {s : Store} {cid : String} {d : TxnData} {uid : String}
    (h : r2 ∈ (upsertByPlaidTransactionId s cid d uid).transactions) :
    r2 ∈ s.transactions ∨
      (r2.plaid_account_id = d.plaid_account_id ∧ r2.connected_account_id = cid) := by
  rcases hf : s.transactions.find?
      (fun r => r.plaid_transaction_id == d.plaid_transaction_id) with - | ex
  · simp only [upsertByPlaidTransactionId, hf] at h
    rcases List.mem_append.mp h with h1 | h1
    · exact Or.inl h1
    · right
      simp only [List.mem_singleton] at h1
      rw [h1]
      exact ⟨rfl, rfl⟩
  · simp only [upsertByPlaidTransactionId, hf] at h
    by_cases hu : (ex.user_id == uid) = true
    · rw [if_pos hu] at h
      exact mem_updateFirstTxn h
    · rw [if_neg hu] at h
      rcases List.mem_append.mp h with h1 | h1
      · exact Or.inl h1
      · right
        simp only [List.mem_singleton] at h1
        rw [h1]
        exact ⟨rfl, rfl⟩

/-- Rows after the filtered added/modified pass: previously stored rows, or
rows of the synced account. -/
theorem mem_upsertMatching {r2 : Txn} (pa cid uid : String) (ds : List TxnData) :
    ∀ (s : Store) (n : Nat), r2 ∈ (upsertMatching pa cid uid ds s n).1.transactions →
      r2 ∈ s.transactions ∨ (r2.plaid_account_id = pa ∧ r2.connected_account_id = cid) := by
  induction ds with
  | nil => exact fun s n h => Or.inl h
  | cons d rest ih =>
    intro s n h
    by_cases hd : (d.plaid_account_id == pa) = true
    · simp only [upsertMatching, hd, if_true] at h
      rcases ih _ _ h with h1 | h1
      · rcases mem_upsertTxn h1 with h2 | h2
        · exact Or.inl h2
        · right
          exact ⟨by rw [h2.1]; exact eq_of_beq hd, h2.2⟩
      · exact Or.inr h1
    · simp only [upsertMatching, hd, Bool.false_eq_true, if_false] at h
      exact ih _ _ h

/-- Deleting a removed row never adds rows. -/
theorem mem_removeFirstTxn {r2 : Txn} {l : List Txn} {p uid : String}
    (h : r2 ∈ removeFirstTxn l p uid) : r2 ∈ l := by
  induction l with
  | nil => simp [removeFirstTxn] at h
  | cons a t ih =>
    simp only [removeFirstTxn] at h
    by_cases hc : (a.plaid_transaction_id == p && a.user_id == uid) = true
    · rw [if_pos hc] at h
      exact List.mem_cons_of_mem a h
    · rw [if_neg hc] at h
      rcases List.mem_cons.mp h with h1 | h1
      · simp [h1]
      · exact List.mem_cons_of_mem a (ih h1)

/-- Rows after one provider-removal delete come from the store. -/
theorem mem_deleteByPtid {r2 : Txn} {s : Store} {p uid : String}
    (h : r2 ∈ (deleteByPlaidTransactionId s p uid).2.transactions) :
    r2 ∈ s.transactions := by
  rcases hf : s.transactions.find?
      (fun r => r.plaid_transaction_id == p && r.user_id == uid) with - | ex
  · simpa only [deleteByPlaidTransactionId, hf] using h
  · simp only [deleteByPlaidTransactionId, hf] at h
    exact mem_removeFirstTxn h

/-- Rows after the removed pass come from the store. -/
theorem mem_deleteRemoved {r2 : Txn} (uid : String) (ps : List String) :
    ∀ (s : Store) (n : Nat), r2 ∈ (deleteRemoved uid ps s n).1.transactions →
      r2 ∈ s.transactions := by
  induction ps with
  | nil => exact fun s n h => h
  | cons p rest ih =>
    intro s n h
    simp only [deleteRemoved] at h
    exact mem_deleteByPtid (ih _ _ h)

/-- The store a loop outcome carries. -/
def TxnLoopResult.finalStore : TxnLoopResult → Store
  | TxnLoopResult.ok _ _ _ _ s => s
  | TxnLoopResult.raised _ s => s

/-- Rows after the page loop: previously stored rows, or rows of the synced
account. -/
theorem mem_syncTxnLoop {r2 : Txn} (pa cid uid : String)
    (pages : List (Except String TxnPage)) :
    ∀ (s : Store) (a m r : Nat) (res : TxnLoopResult),
      syncTxnLoop pa cid uid pages s a m r = some res →
      r2 ∈ res.finalStore.transactions →
      r2 ∈ s.transactions ∨ (r2.plaid_account_id = pa ∧ r2.connected_account_id = cid) := by
  induction pages with
  | nil =>
    intro s a m r res h
    cases h
  | cons pg rest ih =>
    intro s a m r res hrun hmem
    cases pg with
    | error e =>
      simp only [syncTxnLoop, Option.some.injEq] at hrun
      rw [← hrun] at hmem
      exact Or.inl hmem
    | ok page =>
      simp only [syncTxnLoop] at hrun
      by_cases hm2 : page.has_more = true
      · rw [if_pos hm2] at hrun
        rcases ih _ _ _ _ _ hrun hmem with h1 | h1
        · rcases mem_upsertMatching pa cid uid page.modified _ _
              (mem_deleteRemoved uid page.removed _ _ h1) with h2 | h2
          · rcases mem_upsertMatching pa cid uid page.added _ _ h2 with h3 | h3
            · exact Or.inl h3
            · exact Or.inr h3
          · exact Or.inr h2
        · exact Or.inr h1
      · rw [if_neg hm2] at hrun
        simp only [Option.some.injEq] at hrun
        rw [← hrun] at hmem
        rcases mem_upsertMatching pa cid uid page.modified _ _
            (mem_deleteRemoved uid page.removed _ _ hmem) with h2 | h2
        · rcases mem_upsertMatching pa cid uid page.added _ _ h2 with h3 | h3
          · exact Or.inl h3
          · exact Or.inr h3
        · exact Or.inr h2

/-- C7: during the transaction sync of one connected account, every row of
the resulting store either was stored before the run or belongs to the
synced account — it carries the synced account's provider account id and
connected-account id — so added/modified records embedded for sibling
accounts in the same pages create no rows for those accounts. -/
theorem c7_account_isolation (env : Env) (s : Store) (caId uid : String)
    (a : ConnectedAccount) (res : Bool × TxnSyncOutcome) (s2 : Store)
    (hget : getConnectedAccount s caId uid = some a)
    (hrun : syncTransactionsForAccount env s caId uid = some (res, s2)) :
    ∀ r2 ∈ s2.transactions, r2 ∈ s.transactions ∨
      (r2.plaid_account_id = a.plaid_account_id ∧ r2.connected_account_id = caId) := by
  intro r2 hmem
  simp only [syncTransactionsForAccount, hget] at hrun
  cases hact : a.is_active with
  | false =>
    simp only [hact, Bool.false_eq_true, if_false, Option.some.injEq, Prod.mk.injEq] at hrun
    rw [← hrun.2] at hmem
    exact Or.inl hmem
  | true =>
    simp only [hact, if_true] at hrun
    cases hd : env.decrypt a.plaid_access_token with
    | error e =>
      simp only [hd, Option.some.injEq, Prod.mk.injEq] at hrun
      rw [← hrun.2] at hmem
      exact Or.inl hmem
    | ok tok =>
      simp only [hd] at hrun
      cases hl : syncTxnLoop a.plaid_account_id caId uid (env.txnPages tok) s 0 0 0 with
      | none => rw [hl] at hrun; cases hrun
      | some lres =>
        rw [hl] at hrun
        cases lres with
        | ok fc na nm nr sl =>
          simp only [Option.some.injEq, Prod.mk.injEq] at hrun
          rw [← hrun.2] at hmem
          exact mem_syncTxnLoop a.plaid_account_id caId uid (env.txnPages tok)
            s 0 0 0 _ hl hmem
        | raised msg sl =>
          simp only [Option.some.injEq, Prod.mk.injEq] at hrun
          rw [← hrun.2] at hmem
          exact mem_syncTxnLoop a.plaid_account_id caId uid (env.txnPages tok)
            s 0 0 0 _ hl hmem

def accountC7 : ConnectedAccount :=
  mkActiveAccount "ca7" "u7" "tok7" "pa7" "depository" (some "checking")

def storeC7 : Store := { emptyStore with accounts := [accountC7] }

def txnC7own : TxnData :=
  { plaid_transaction_id := "T71", plaid_account_id := "pa7", amount := some 1,
    name := some "Groceries", merchant_name := none }

def txnC7sib : TxnData :=
  { plaid_transaction_id := "T72", plaid_account_id := "paSIB", amount := some 2,
    name := some "Sibling", merchant_name := none }

def envC7 : Env :=
  { baseEnv with txnPages := fun _ =>
      [Except.ok { added := [txnC7own, txnC7sib], modified := [], removed := [],
                   next_cursor := "c1", has_more := false }] }

def resC7 : Bool × TxnSyncOutcome :=
  ((syncTransactionsForAccount envC7 storeC7 "ca7" "u7").map Prod.fst).getD
    (false, TxnSyncOutcome.failed "unreached")

def storeC7after : Store :=
  ((syncTransactionsForAccount envC7 storeC7 "ca7" "u7").map Prod.snd).getD emptyStore

def txnRowC7 : Txn :=
  { id := "uuid-0", user_id := "u7", connected_account_id := "ca7",
    plaid_transaction_id := "T71", plaid_account_id := "pa7",
    amount := some 1, name := some "Groceries", merchant_name := none }

/-- Witness for C7: a run whose only page carries a record for the synced
account and a record embedded for a sibling account; the isolation theorem
applied to the one row the run stored. -/
theorem c7_account_isolation_witness :
    txnRowC7 ∈ storeC7after.transactions ∧
    (txnRowC7 ∈ storeC7.transactions ∨
      (txnRowC7.plaid_account_id = accountC7.plaid_account_id ∧
       txnRowC7.connected_account_id = "ca7")) :=
  ⟨by decide,
   c7_account_isolation envC7 storeC7 "ca7" "u7" accountC7 resC7 storeC7after
     (by decide) (by decide) txnRowC7 (by decide)⟩

/-- The account-row update touches no liability row. -/
theorem updateConnectedAccount_liabilities (s : Store) (caId uid : String)
    (c : Option String) (t : Option Nat) (e : Option String) :
    (updateConnectedAccount s caId uid c t e).liabilities = s.liabilities := rfl

/-- The account-row update touches no asset row. -/
theorem updateConnectedAccount_assets (s : Store) (caId uid : String)
    (c : Option String) (t : Option Nat) (e : Option String) :
    (updateConnectedAccount s caId uid c t e).assets = s.assets := rfl

/-- Updating the found linked liability in place is what the user-filtered
link lookup then sees, under unique row ids. -/
theorem findLiab_update (l : List Liability) (uid caId : String) (v : ℚ) (t : Nat)
    (huniq : ∀ x ∈ l, ∀ y ∈ l, x.id = y.id → x = y)
    (ex : Liability)
    (hex : (l.filter (fun q => q.user_id == uid)).find?
        (fun q => q.connected_account_id == some caId) = some ex) :
    ((updateFirstLiability l ex.id uid v t).filter (fun q => q.user_id == uid)).find?
        (fun q => q.connected_account_id == some caId) =
      some { ex with balance := v, last_synced_at := some t } := by
  induction l with
  | nil => simp at hex
  | cons b rest ih =>
    have huniq2 : ∀ x ∈ rest, ∀ y ∈ rest, x.id = y.id → x = y :=
      fun x hx y hy => huniq x (List.mem_cons_of_mem _ hx) y (List.mem_cons_of_mem _ hy)
    cases hbu : (b.user_id == uid) with
    | false =>
      have hex2 : (rest.filter (fun q => q.user_id == uid)).find?
          (fun q => q.connected_account_id == some caId) = some ex := by
        simpa [List.filter_cons, hbu] using hex
      rw [show updateFirstLiability (b :: rest) ex.id uid v t =
          b :: updateFirstLiability rest ex.id uid v t from by
        simp [updateFirstLiability, hbu]]
      rw [show (b :: updateFirstLiability rest ex.id uid v t).filter
            (fun q => q.user_id == uid) =
          (updateFirstLiability rest ex.id uid v t).filter
            (fun q => q.user_id == uid) from by
        simp [List.filter_cons, hbu]]
      exact ih huniq2 hex2
    | true =>
      cases hbc : (b.connected_account_id == some caId) with
      | true =>
        have hexb : b = ex := by
          have hfb : ((b :: rest).filter (fun q => q.user_id == uid)).find?
              (fun q => q.connected_account_id == some caId) = some b := by
            simp [List.filter_cons, hbu, List.find?_cons, hbc]
          rw [hfb] at hex
          exact Option.some.inj hex
        subst hexb
        simp [updateFirstLiability, hbu, List.filter_cons, List.find?_cons, hbc]
      | false =>
        have hex2 : (rest.filter (fun q => q.user_id == uid)).find?
            (fun q => q.connected_account_id == some caId) = some ex := by
          simpa [List.filter_cons, hbu, List.find?_cons, hbc] using hex
        have hexmem : ex ∈ rest :=
          (List.mem_filter.mp (List.mem_of_find?_eq_some hex2)).1
        have hexpred := List.find?_some hex2
        have hbid : (b.id == ex.id) = false := by
          cases hb2 : (b.id == ex.id) with
          | false => rfl
          | true =>
            have hb3 : b = ex :=
              huniq b (List.mem_cons_self b rest) ex
                (List.mem_cons_of_mem _ hexmem) (eq_of_beq hb2)
            rw [hb3, hexpred] at hbc
            cases hbc
        rw [show updateFirstLiability (b :: rest) ex.id uid v t =
            b :: updateFirstLiability rest ex.id uid v t from by
          simp [updateFirstLiability, hbid]]
        rw [show (b :: updateFirstLiability rest ex.id uid v t).filter
              (fun q => q.user_id == uid) =
            b :: (updateFirstLiability rest ex.id uid v t).filter
              (fun q => q.user_id == uid) from by
          simp [List.filter_cons, hbu]]
        rw [show ∀ l2 : List Liability,
            (b :: l2).find? (fun q => q.connected_account_id == some caId) =
            l2.find? (fun q => q.connected_account_id == some caId) from fun l2 => by
          simp [List.find?_cons, hbc]]
        exact ih huniq2 hex2

/-- A freshly appended linked liability is what the link lookup sees when no
linked liability existed. -/
theorem findLiab_append (l : List Liability) (uid caId : String) (nr : Liability)
    (hnone : (l.filter (fun q => q.user_id == uid)).find?
        (fun q => q.connected_account_id == some caId) = none)
    (hu : (nr.user_id == uid) = true) (hc : (nr.connected_account_id == some caId) = true) :
    (((l ++ [nr]).filter (fun q => q.user_id == uid)).find?
        (fun q => q.connected_account_id == some caId)) = some nr := by
  rw [List.filter_append, find?_append_of_none _ _ _ hnone]
  simp [List.filter_cons, hu, List.find?_cons, hc]

/-- A freshly appended linked asset is what the link lookup sees when no
linked asset existed. -/
theorem findAsset_append (l : List Asset) (uid caId : String) (nr : Asset)
    (hnone : (l.filter (fun q => q.user_id == uid)).find?
        (fun q => q.connected_account_id == some caId) = none)
    (hu : (nr.user_id == uid) = true) (hc : (nr.connected_account_id == some caId) = true) :
    (((l ++ [nr]).filter (fun q => q.user_id == uid)).find?
        (fun q => q.connected_account_id == some caId)) = some nr := by
  rw [List.filter_append, find?_append_of_none _ _ _ hnone]
  simp [List.filter_cons, hu, List.find?_cons, hc]

/-- The liability upsert of the balance synchronizer stores exactly the
passed balance on the linked liability, on both the update and the creation
path. -/
theorem findLiab_createOrUpdate (s : Store) (a : ConnectedAccount) (cat : String)
    (v : ℚ) (uid : String)
    (huniq : ∀ x ∈ s.liabilities, ∀ y ∈ s.liabilities, x.id = y.id → x = y) :
    ∃ q, findLiabilityByCA (createOrUpdateLiability s a cat v uid) uid a.id = some q ∧
      q.balance = v := by
  rcases hf : findLiabilityByCA s uid a.id with - | ex
  · refine ⟨{ id := freshId s.nextId, user_id := uid, category := cat,
              name := a.institution_name ++ " " ++ a.account_name, balance := v,
              connected_account_id := some a.id, is_connected := true,
              last_synced_at := some s.now }, ?_, rfl⟩
    simp only [createOrUpdateLiability, hf]
    exact findLiab_append s.liabilities uid a.id _ hf (by simp) (by simp)
  · refine ⟨{ ex with balance := v, last_synced_at := some s.now }, ?_, rfl⟩
    simp only [createOrUpdateLiability, hf]
    exact findLiab_update s.liabilities uid a.id v s.now huniq ex hf

/-- C9: for every liability-mapped account whose sync reaches the upsert,
the balance stored on the linked liability record is the sign-normalized
chosen balance — its absolute value when negative, itself otherwise — and
is therefore never negative; this covers both the update-in-place and the
first-creation path (store row ids assumed unique, as the primary key
makes them). -/
theorem c9_liability_sign_normalized (env : Env) (s : Store) (caId uid : String)
    (a : ConnectedAccount) (tok : String) (bi : BalanceInfo) (cat : String)
    (hget : getConnectedAccount s caId uid = some a)
    (hactive : a.is_active = true)
    (hdec : env.decrypt a.plaid_access_token = Except.ok tok)
    (hbal : env.getBalance tok a.plaid_account_id = some bi)
    (hmap : mapPlaidToCategory a.account_type a.account_subtype = (some cat, false))
    (hpf : env.persistFail = none)
    (huniq : ∀ x ∈ s.liabilities, ∀ y ∈ s.liabilities, x.id = y.id → x = y) :
    ∃ q, findLiabilityByCA (syncAccount env s caId uid).2 uid caId = some q ∧
      q.balance = (if chooseBalance bi.current bi.available < 0
                   then -(chooseBalance bi.current bi.available)
                   else chooseBalance bi.current bi.available) ∧
      0 ≤ q.balance := by
  obtain ⟨hid, -⟩ := getConnectedAccount_keys hget
  have hvnn : (0 : ℚ) ≤ (if chooseBalance bi.current bi.available < 0
      then -(chooseBalance bi.current bi.available)
      else chooseBalance bi.current bi.available) := by
    by_cases hb : chooseBalance bi.current bi.available < 0
    · rw [if_pos hb]
      linarith
    · rw [if_neg hb]
      linarith
  simp only [syncAccount, hget, hactive, if_true, hdec, hbal, hmap, hpf,
    Bool.false_eq_true, if_false]
  rw [← hid]
  obtain ⟨q, hq, hqb⟩ := findLiab_createOrUpdate s a cat
    (if chooseBalance bi.current bi.available < 0
     then -(chooseBalance bi.current bi.available)
     else chooseBalance bi.current bi.available) uid huniq
  exact ⟨q, hq, hqb, hqb ▸ hvnn⟩

def accountC9 : ConnectedAccount :=
  mkActiveAccount "ca9" "u9" "tok9" "pa9" "credit" (some "credit card")

def storeC9 : Store := { emptyStore with accounts := [accountC9] }

def balC9 : BalanceInfo := { available := none, current := some (-250), creditLimit := none }

def envC9 : Env := { baseEnv with getBalance := fun _ _ => some balC9 }

/-- Witness for C9: a credit-card account whose fetched current balance is
negative; the stored owed amount is its absolute value. -/
theorem c9_liability_sign_normalized_witness :
    ∃ q, findLiabilityByCA (syncAccount envC9 storeC9 "ca9" "u9").2 "u9" "ca9" = some q ∧
      q.balance = (if chooseBalance balC9.current balC9.available < 0
                   then -(chooseBalance balC9.current balC9.available)
                   else chooseBalance balC9.current balC9.available) ∧
      0 ≤ q.balance :=
  c9_liability_sign_normalized envC9 storeC9 "ca9" "u9" accountC9 "tok9" balC9
    "credit_card" (by decide) (by decide) rfl rfl (by decide)
    rfl (by decide)

/-- The asset creation path of the balance synchronizer stores exactly the
chosen balance on the fresh linked asset. -/
theorem findAsset_create (s : Store) (a : ConnectedAccount) (cat : String)
    (v : ℚ) (uid : String)
    (hnone : findAssetByCA s uid a.id = none) :
    findAssetByCA (createOrUpdateAsset s a cat v uid) uid a.id =
      some { id := freshId s.nextId, user_id := uid, category := cat,
             name := a.institution_name ++ " " ++ a.account_name, value := v,
             connected_account_id := some a.id, is_connected := true,
             last_synced_at := some s.now } := by
  simp only [createOrUpdateAsset, hnone]
  exact findAsset_append s.assets uid a.id _ hnone (by simp) (by simp)

/-- C10: the balance `sync_account` stores is the first truthy of (current,
available, 0.0): a truthy current wins; a current of exactly zero is treated
like an absent one and yields the available balance when that is truthy; and
when both are absent or zero the chosen value is 0.0.  The last conjunct
ties the choice to `sync_account`: on the asset path with no previously
linked asset, the stored value is exactly `chooseBalance current available`. -/
theorem c10_first_truthy_balance :
    (∀ c av, c ≠ 0 → chooseBalance (some c) av = c) ∧
    (∀ av, chooseBalance (some 0) av = chooseBalance none av) ∧
    (∀ x, x ≠ 0 → chooseBalance none (some x) = x) ∧
    chooseBalance none none = 0 ∧
    chooseBalance (some 0) (some 0) = 0 ∧
    chooseBalance (some 0) none = 0 ∧
    (∀ env s caId uid a tok bi cat,
      getConnectedAccount s caId uid = some a → a.is_active = true →
      env.decrypt a.plaid_access_token = Except.ok tok →
      env.getBalance tok a.plaid_account_id = some bi →
      mapPlaidToCategory a.account_type a.account_subtype = (some cat, true) →
      env.persistFail = none →
      findAssetByCA s uid caId = none →
      ∃ x, findAssetByCA (syncAccount env s caId uid).2 uid caId = some x ∧
        x.value = chooseBalance bi.current bi.available) := by
  refine ⟨?_, ?_, ?_, rfl, by norm_num [chooseBalance, pyOr], rfl, ?_⟩
  · intro c av hc
    simp [chooseBalance, pyOr, hc]
  · intro av
    simp [chooseBalance, pyOr]
  · intro x hx
    simp [chooseBalance, pyOr, hx]
  · intro env s caId uid a tok bi cat hget hactive hdec hbal hmap hpf hnone
    obtain ⟨hid, -⟩ := getConnectedAccount_keys hget
    simp only [syncAccount, hget, hactive, if_true, hdec, hbal, hmap, hpf]
    rw [← hid] at hnone ⊢
    exact ⟨_, findAsset_create s a cat (chooseBalance bi.current bi.available) uid hnone,
      rfl⟩

def accountC10 : ConnectedAccount :=
  mkActiveAccount "ca10" "u10" "tok10" "pa10" "depository" (some "checking")

def storeC10 : Store := { emptyStore with accounts := [accountC10] }

def balC10 : BalanceInfo := { available := some 7, current := some 0, creditLimit := none }

def envC10 : Env := { baseEnv with getBalance := fun _ _ => some balC10 }

/-- Witness for C10: the truthiness facts at concrete rationals, and a sync
of an account whose current balance is exactly zero and available is 7 —
the stored asset value is the chosen balance. -/
theorem c10_first_truthy_balance_witness :
    chooseBalance (some 5) (some 7) = 5 ∧
    chooseBalance none (some 7) = 7 ∧
    (∃ x, findAssetByCA (syncAccount envC10 storeC10 "ca10" "u10").2 "u10" "ca10" = some x ∧
      x.value = chooseBalance balC10.current balC10.available) := by
  refine ⟨c10_first_truthy_balance.1 5 (some 7) (by norm_num),
    c10_first_truthy_balance.2.2.1 7 (by norm_num), ?_⟩
  exact c10_first_truthy_balance.2.2.2.2.2.2 envC10 storeC10 "ca10" "u10" accountC10
    "tok10" balC10 "cash" (by decide) (by decide) rfl rfl (by decide)
    rfl (by decide)

/-- Whether one snapshot entry's security id resolves through the map to a
truthy internal id — the condition under which the holdings pass inserts a
row. -/
def resolvedIn (m : List (String × String)) (d : HoldData) : Bool :=
  match m.lookup d.security_id with
  | some v => v != ""
  | none => false

/-- The rows the holdings pass inserts, as a pure function of the snapshot
entries and the starting id counter. -/
def builtHoldings (pa caId uid : String) (m : List (String × String)) :
    List HoldData → Nat → List Holding
  | [], _ => []
  | d :: rest, k =>
    if d.account_id == pa then
      match m.lookup d.security_id with
      | some secId =>
        if secId != "" then
          mkHolding (freshId k) uid caId secId d :: builtHoldings pa caId uid m rest (k + 1)
        else
          builtHoldings pa caId uid m rest k
      | none => builtHoldings pa caId uid m rest k
    else
      builtHoldings pa caId uid m rest k

/-- The holdings pass appends exactly `builtHoldings` and counts its
length. -/
theorem createHoldings_spec (pa caId uid : String) (m : List (String × String)) :
    ∀ (hs : List HoldData) (s : Store) (n : Nat),
      (createHoldings pa caId uid m hs s n).1.holdings =
        s.holdings ++ builtHoldings pa caId uid m hs s.nextId ∧
      (createHoldings pa caId uid m hs s n).2 =
        n + (builtHoldings pa caId uid m hs s.nextId).length := by
  intro hs
  induction hs with
  | nil =>
    intro s n
    simp [createHoldings, builtHoldings]
  | cons d rest ih =>
    intro s n
    cases hacc : (d.account_id == pa) with
    | false =>
      simp only [createHoldings, builtHoldings, hacc, Bool.false_eq_true, if_false]
      exact ih s n
    | true =>
      rcases hlk : m.lookup d.security_id with - | secId
      · simp only [createHoldings, builtHoldings, hacc, if_true, hlk]
        exact ih s n
      · cases hne : (secId != "") with
        | false =>
          simp only [createHoldings, builtHoldings, hacc, if_true, hlk,
            hne, Bool.false_eq_true, if_false]
          exact ih s n
        | true =>
          simp only [createHoldings, builtHoldings, hacc, if_true, hlk, hne]
          obtain ⟨h1, h2⟩ := ih
            { s with holdings := s.holdings ++ [mkHolding (freshId s.nextId) uid caId secId d],
                     nextId := s.nextId + 1 } (n + 1)
          refine ⟨?_, ?_⟩
          · rw [h1]
            simp [List.append_assoc]
          · rw [h2]
            simp only [List.length_cons]
            omega

/-- Every inserted holding row belongs to the synced connected account and
user. -/
theorem builtHoldings_mem (pa caId uid : String) (m : List (String × String)) :
    ∀ (hs : List HoldData) (k : Nat) (h2 : Holding),
      h2 ∈ builtHoldings pa caId uid m hs k →
      h2.connected_account_id = caId ∧ h2.user_id = uid := by
  intro hs
  induction hs with
  | nil =>
    intro k h2 h
    simp [builtHoldings] at h
  | cons d rest ih =>
    intro k h2 h
    cases hacc : (d.account_id == pa) with
    | false =>
      simp only [builtHoldings, hacc, Bool.false_eq_true, if_false] at h
      exact ih _ _ h
    | true =>
      rcases hlk : m.lookup d.security_id with - | secId
      · simp only [builtHoldings, hacc, if_true, hlk] at h
        exact ih _ _ h
      · cases hne : (secId != "") with
        | false =>
          simp only [builtHoldings, hacc, if_true, hlk, hne, Bool.false_eq_true,
            if_false] at h
          exact ih _ _ h
        | true =>
          simp only [builtHoldings, hacc, if_true, hlk, hne] at h
          rcases List.mem_cons.mp h with h1 | h1
          · rw [h1]
            exact ⟨rfl, rfl⟩
          · exact ih _ _ h1

/-- One inserted row per snapshot entry of the synced account whose security
resolved. -/
theorem builtHoldings_length (pa caId uid : String) (m : List (String × String)) :
    ∀ (hs : List HoldData) (k : Nat),
      (builtHoldings pa caId uid m hs k).length =
        (hs.filter (fun d => d.account_id == pa && resolvedIn m d)).length := by
  intro hs
  induction hs with
  | nil =>
    intro k
    rfl
  | cons d rest ih =>
    intro k
    cases hacc : (d.account_id == pa) with
    | false =>
      simp only [builtHoldings, hacc, Bool.false_eq_true, if_false, List.filter_cons,
        Bool.false_and]
      exact ih k
    | true =>
      rcases hlk : m.lookup d.security_id with - | secId
      · have hres : resolvedIn m d = false := by
          simp [resolvedIn, hlk]
        simp only [builtHoldings, hacc, if_true, hlk, List.filter_cons, hres,
          Bool.and_false, Bool.false_eq_true, if_false]
        exact ih k
      · cases hne : (secId != "") with
        | false =>
          have hres : resolvedIn m d = false := by
            simp only [resolvedIn, hlk]
            exact hne
          simp only [builtHoldings, hacc, if_true, hlk, hne, Bool.false_eq_true,
            if_false, List.filter_cons, hres, Bool.and_false]
          exact ih k
        | true =>
          have hres : resolvedIn m d = true := by
            simp only [resolvedIn, hlk]
            exact hne
          simp only [builtHoldings, hacc, if_true, hlk, hne, List.filter_cons, hres,
            Bool.and_true, List.length_cons]
          rw [ih (k + 1)]

/-- Deleting the account's holdings leaves nothing of that account. -/
theorem filter_deleteHoldings (s : Store) (caId uid : String) :
    ((deleteHoldingsByAccount s caId uid).holdings.filter
      (fun h => h.connected_account_id == caId && h.user_id == uid)) = [] := by
  simp only [deleteHoldingsByAccount]
  rw [List.filter_eq_nil_iff]
  intro h hmem
  have h2 := (List.mem_filter.mp hmem).2
  simp only [Bool.not_eq_true'] at h2
  simp [h2]

/-- The account-row update touches no holding row. -/
theorem updateConnectedAccount_holdings (s : Store) (caId uid : String)
    (c : Option String) (t : Option Nat) (e : Option String) :
    (updateConnectedAccount s caId uid c t e).holdings = s.holdings := rfl

def accountC4 : ConnectedAccount :=
  mkActiveAccount "ca4" "u4" "tok4" "pa4" "investment" (some "brokerage")

def storeC4 : Store := { emptyStore with accounts := [accountC4] }

def secY4 : SecData :=
  { security_id := "SY", name := some "Y Corp", ticker_symbol := some "Y",
    is_cash_equivalent := some false, sec_type := some "stock",
    close_price := some 20, close_price_as_of := none,
    iso_currency_code := some "USD" }

/-- A snapshot holding entry with the given account, security and
quantity. -/
def holdEntry (acct sec : String) (q : ℚ) : HoldData :=
  { account_id := acct, security_id := sec, institution_price := none,
    institution_price_as_of := none, institution_value := none,
    cost_basis := none, quantity := some q, iso_currency_code := some "USD" }

/-- Snapshot A: X of 10 and Y of 5 for the synced account, one entry of a
sibling account, one entry referencing an unresolved security SZ. -/
def snapA : HoldingsData :=
  { securities := [secX, secY4],
    holdings := [holdEntry "pa4" "SX" 10, holdEntry "pa4" "SY" 5,
                 holdEntry "paOTHER" "SX" 99, holdEntry "pa4" "SZ" 1] }

/-- Snapshot B: only X of 12. -/
def snapB : HoldingsData :=
  { securities := [secX], holdings := [holdEntry "pa4" "SX" 12] }

def envC4A : Env := { baseEnv with getHoldings := fun _ => Except.ok snapA }

def envC4B : Env := { baseEnv with getHoldings := fun _ => Except.ok snapB }

def storeC4A : Store := (syncHoldingsForAccount envC4A storeC4 "ca4" "u4").2

def storeC4B : Store := (syncHoldingsForAccount envC4B storeC4A "ca4" "u4").2

/-- C4: a successful holdings sync replaces the account's stored holdings
wholesale.  General part: every successful run leaves exactly as many rows
owned by the account as it reports added, and that count is one per snapshot
entry whose account id matches the synced account and whose security
resolved through the upserted-security map.  Scenario: syncing snapshot A
(X of 10, Y of 5, plus one sibling-account entry and one entry with the
unresolved security SZ, both silently producing no row while the sync still
succeeds) and then snapshot B (X of 12) leaves exactly the single row X of
12: no stale Y row, no duplicate X row. -/
theorem c4_holdings_wholesale_replacement :
    (∀ env s caId uid a tok snap n m2 s4,
      getConnectedAccount s caId uid = some a →
      env.decrypt a.plaid_access_token = Except.ok tok →
      env.getHoldings tok = Except.ok snap →
      syncHoldingsForAccount env s caId uid = ((true, HoldSyncOutcome.counts n m2), s4) →
      ((s4.holdings.filter
          (fun h => h.connected_account_id == caId && h.user_id == uid)).length = n ∧
       n = (snap.holdings.filter (fun d => d.account_id == a.plaid_account_id &&
             resolvedIn (upsertSecurities snap.securities s []).2 d)).length)) ∧
    (syncHoldingsForAccount envC4A storeC4 "ca4" "u4").1 =
      (true, HoldSyncOutcome.counts 2 2) ∧
    (storeC4A.holdings.filter
        (fun h => h.connected_account_id == "ca4" && h.user_id == "u4")).map
        (fun h => (h.security_id, h.quantity)) =
      [("uuid-0", some 10), ("uuid-1", some 5)] ∧
    (syncHoldingsForAccount envC4B storeC4A "ca4" "u4").1 =
      (true, HoldSyncOutcome.counts 1 1) ∧
    storeC4B.holdings.map (fun h => (h.security_id, h.quantity)) =
      [("uuid-0", some 12)] := by
  refine ⟨?_, by decide, by decide, by decide, by decide⟩
  intro env s caId uid a tok snap n m2 s4 hget hdec hsnap hrun
  simp only [syncHoldingsForAccount, hget] at hrun
  cases hact : a.is_active with
  | false => simp [hact] at hrun
  | true =>
    simp only [hact, if_true, hdec, hsnap, Prod.mk.injEq,
      HoldSyncOutcome.counts.injEq, true_and] at hrun
    obtain ⟨⟨hn, -⟩, hs4⟩ := hrun
    subst hs4
    obtain ⟨hH, hC⟩ := createHoldings_spec a.plaid_account_id caId uid
      (upsertSecurities snap.securities s []).2 snap.holdings
      (deleteHoldingsByAccount (upsertSecurities snap.securities s []).1 caId uid) 0
    constructor
    · rw [updateConnectedAccount_holdings, hH, List.filter_append,
        filter_deleteHoldings, List.nil_append]
      rw [List.filter_eq_self.mpr]
      · rw [← hn, hC]
        omega
      · intro h2 hmem
        obtain ⟨h1, h2u⟩ := builtHoldings_mem a.plaid_account_id caId uid
          (upsertSecurities snap.securities s []).2 snap.holdings _ h2 hmem
        simp [h1, h2u]
    · rw [← hn, hC, builtHoldings_length]
      omega

/-- Witness for the general part of C4, at the snapshot-A run. -/
theorem c4_holdings_wholesale_replacement_witness :
    ((storeC4A.holdings.filter
        (fun h => h.connected_account_id == "ca4" && h.user_id == "u4")).length = 2 ∧
     2 = (snapA.holdings.filter (fun d => d.account_id == accountC4.plaid_account_id &&
           resolvedIn (upsertSecurities snapA.securities storeC4 []).2 d)).length) :=
  c4_holdings_wholesale_replacement.1 envC4A storeC4 "ca4" "u4" accountC4 "tok4"
    snapA 2 2 storeC4A (by decide) rfl rfl (by decide)

/-- The pipeline stages a per-account error entry can carry. -/
def stageOk (e : ErrEntry) : Prop :=
  e.stage = "balance_sync" ∨ e.stage = "transaction_sync" ∨ e.stage = "holdings_sync"

/-- Every error entry the per-account loop appends carries one of the three
pipeline stages. -/
theorem syncUserAccounts_errors (env : Env) (uid : String) :
    ∀ (accts : List ConnectedAccount) (s : Store) (rep ur : UserReport) (s2 : Store),
      syncUserAccounts env uid accts s rep = some (ur, s2) →
      ∀ e ∈ ur.errors, e ∈ rep.errors ∨ stageOk e := by
  intro accts
  induction accts with
  | nil =>
    intro s rep ur s2 h e he
    simp only [syncUserAccounts, Option.some.injEq, Prod.mk.injEq] at h
    rw [← h.1] at he
    exact Or.inl he
  | cons acct rest ih =>
    intro s rep ur s2 h e he
    simp only [syncUserAccounts] at h
    cases hb : (syncAccount env s acct.id uid).1.1 with
    | false =>
      simp only [hb, Bool.false_eq_true, if_false] at h
      rcases ih _ _ _ _ h e he with h1 | h1
      · rcases List.mem_append.mp h1 with h2 | h2
        · exact Or.inl h2
        · right
          simp only [List.mem_singleton] at h2
          rw [h2]
          exact Or.inl rfl
      · exact Or.inr h1
    | true =>
      simp only [hb, if_true] at h
      cases hty : (acct.account_type == "investment") with
      | true =>
        simp only [hty, if_true] at h
        rcases ih _ _ _ _ h e he with h1 | h1
        · rcases List.mem_append.mp h1 with h2 | h2
          · exact Or.inl h2
          · right
            simp only [List.mem_singleton] at h2
            rw [h2]
            exact Or.inr (Or.inr rfl)
        · exact Or.inr h1
      | false =>
        simp only [hty, Bool.false_eq_true, if_false] at h
        cases htx : syncTransactionsForAccount env (syncAccount env s acct.id uid).2
            acct.id uid with
        | none => rw [htx] at h; cases h
        | some p =>
          rw [htx] at h
          obtain ⟨⟨txnOk, outcome⟩, s3⟩ := p
          cases htk : txnOk with
          | true =>
            simp only [htk, if_true] at h
            rcases ih _ _ _ _ h e he with h1 | h1
            · exact Or.inl h1
            · exact Or.inr h1
          | false =>
            simp only [htk, Bool.false_eq_true, if_false] at h
            rcases ih _ _ _ _ h e he with h1 | h1
            · rcases List.mem_append.mp h1 with h2 | h2
              · exact Or.inl h2
              · right
                simp only [List.mem_singleton] at h2
                rw [h2]
                exact Or.inr (Or.inl rfl)
            · exact Or.inr h1

/-- Every error entry of a user report carries one of the three pipeline
stages. -/
theorem syncUser_errors (env : Env) (s : Store) (uid : String) (ur : UserReport)
    (s2 : Store) (h : syncUser env s uid = some (ur, s2)) :
    ∀ e ∈ ur.errors, stageOk e := by
  intro e he
  simp only [syncUser] at h
  rcases syncUserAccounts_errors env uid _ _ _ _ _ h e he with h1 | h1
  · simp at h1
  · exact h1

/-- The per-user fold accounts every user as synced or failed, keeps the
total, and files only well-staged error lists. -/
theorem syncUsersFold_spec (env : Env) :
    ∀ (uids : List String) (s : Store) (rep rep2 : BatchReport) (s2 : Store),
      syncUsersFold env uids s rep = some (rep2, s2) →
      (rep2.users_synced + rep2.users_failed =
        rep.users_synced + rep.users_failed + uids.length ∧
       rep2.users_total = rep.users_total ∧
       ∀ p ∈ rep2.user_errors, p ∈ rep.user_errors ∨ ∀ e ∈ p.2, stageOk e) := by
  intro uids
  induction uids with
  | nil =>
    intro s rep rep2 s2 h
    simp only [syncUsersFold, Option.some.injEq, Prod.mk.injEq] at h
    rw [← h.1]
    exact ⟨rfl, rfl, fun p hp => Or.inl hp⟩
  | cons uid rest ih =>
    intro s rep rep2 s2 h
    simp only [syncUsersFold] at h
    cases hu : syncUser env s uid with
    | none => rw [hu] at h; cases h
    | some p =>
      rw [hu] at h
      obtain ⟨ur, s3⟩ := p
      cases hemp : ur.errors.isEmpty with
      | true =>
        simp only [hemp, if_true] at h
        obtain ⟨h1, h2, h3⟩ := ih _ _ _ _ h
        refine ⟨?_, h2, ?_⟩
        · simp only [List.length_cons]
          simp at h1
          omega
        intro q hq
        rcases h3 q hq with h4 | h4
        · exact Or.inl h4
        · exact Or.inr h4
      | false =>
        simp only [hemp, Bool.false_eq_true, if_false] at h
        obtain ⟨h1, h2, h3⟩ := ih _ _ _ _ h
        refine ⟨?_, h2, ?_⟩
        · simp only [List.length_cons]
          simp at h1
          omega
        intro q hq
        rcases h3 q hq with h4 | h4
        · rcases List.mem_append.mp h4 with h5 | h5
          · exact Or.inl h5
          · right
            simp only [List.mem_singleton] at h5
            rw [h5]
            exact syncUser_errors env s uid ur s3 hu
        · exact Or.inr h4

def accountC81 : ConnectedAccount :=
  mkActiveAccount "ca81" "u81" "tok81" "pa81" "depository" (some "checking")

def accountC82 : ConnectedAccount :=
  mkActiveAccount "ca82" "u82" "tok82" "pa82" "depository" (some "checking")

def accountC83 : ConnectedAccount :=
  mkActiveAccount "ca83" "u83" "tok83" "pa83" "depository" (some "checking")

def storeC8 : Store :=
  { emptyStore with accounts := [accountC81, accountC82, accountC83] }

/-- A single-transaction final page for the given transaction and account
ids. -/
def pageFor (ptid acct : String) : TxnPage :=
  { added := [{ plaid_transaction_id := ptid, plaid_account_id := acct,
                amount := some 1, name := some "T", merchant_name := none }],
    modified := [], removed := [], next_cursor := "c1", has_more := false }

def envC8 : Env :=
  { baseEnv with
    getBalance := fun _ _ => balance100,
    txnPages := fun tok =>
      if tok == "tok82" then [Except.error "boom"]
      else if tok == "tok81" then [Except.ok (pageFor "T81" "pa81")]
      else [Except.ok (pageFor "T83" "pa83")] }

/-- C8: general part — for every run of `sync_all_users`, the overall
success flag equals (zero user failures), every enumerated user is accounted
as synced or failed, and every per-account error entry filed under
`user_errors` carries a pipeline stage among balance_sync, transaction_sync
and holdings_sync.  Scenario part — with three users where only user 2's
account fails (during transaction sync, after its balance sync succeeded),
users 1 and 3 are reported synced, user 2 appears under `user_errors` with a
transaction_sync entry, and the aggregate totals count only completed work:
3 balance syncs, the 2 transactions of users 1 and 3, nothing of user 2's
aborted page. -/
def repC8 : BatchReport :=
  ((syncAllUsers envC8 storeC8).map Prod.fst).getD (initBatchReport emptyStore 0)

def storeC8after : Store :=
  ((syncAllUsers envC8 storeC8).map Prod.snd).getD emptyStore

theorem c8_batch_isolation_and_report :
    (∀ env s rep s2, syncAllUsers env s = some (rep, s2) →
      (rep.success = (rep.users_failed == 0) ∧
       rep.users_total = (getAllUserIds s).length ∧
       rep.users_synced + rep.users_failed = rep.users_total ∧
       ∀ p ∈ rep.user_errors, ∀ e ∈ p.2, stageOk e)) ∧
    (syncAllUsers envC8 storeC8).isSome = true ∧
    repC8.users_total = 3 ∧ repC8.users_synced = 2 ∧ repC8.users_failed = 1 ∧
    repC8.success = false ∧ repC8.total_accounts_synced = 3 ∧
    repC8.total_accounts_failed = 0 ∧ repC8.total_transactions_added = 2 ∧
    repC8.total_holdings_synced = 0 ∧
    repC8.user_errors =
      [("u82", [{ account_id := "ca82", account_name := "Acct",
                  stage := "transaction_sync",
                  error := some "Transaction sync failed: boom" }])] := by
  refine ⟨?_, by decide, by decide, by decide, by decide, by decide, by decide,
    by decide, by decide, by decide, by decide⟩
  intro env s rep s2 h
  simp only [syncAllUsers] at h
  cases hf : syncUsersFold env (getAllUserIds s) s
      (initBatchReport s (getAllUserIds s).length) with
  | none => rw [hf] at h; cases h
  | some p =>
    rw [hf] at h
    obtain ⟨rep0, s3⟩ := p
    simp only [Option.some.injEq, Prod.mk.injEq] at h
    obtain ⟨hrep, -⟩ := h
    obtain ⟨h1, h2, h3⟩ := syncUsersFold_spec env (getAllUserIds s) s _ rep0 s3 hf
    rw [← hrep]
    refine ⟨rfl, ?_, ?_, ?_⟩
    · show rep0.users_total = (getAllUserIds s).length
      exact h2
    · show rep0.users_synced + rep0.users_failed = rep0.users_total
      simp only [initBatchReport] at h1 h2
      omega
    · intro q hq e he
      rcases h3 q hq with h4 | h4
      · simp [initBatchReport] at h4
      · exact h4 e he

/-- Witness for the general part of C8, at the three-user scenario run. -/
theorem c8_batch_isolation_and_report_witness :
    repC8.success = (repC8.users_failed == 0) ∧
    repC8.users_total = (getAllUserIds storeC8).length ∧
    repC8.users_synced + repC8.users_failed = repC8.users_total ∧
    ∀ p ∈ repC8.user_errors, ∀ e ∈ p.2, stageOk e :=
  c8_batch_isolation_and_report.1 envC8 storeC8 repC8 storeC8after (by decide)

end FinSync
